import Mathlib

/-!
Verification of the libdenavit cross-section core: the ACI strain-compatibility
engine (`section/ACI_strain_compatibility.py`) and the adaptive continuation
controller (`cross_section_2d.py`).

The strain-compatibility engine is embedded over `ℝ` (its claims involve
continuity); the continuation controller is embedded over `ℚ` (all of its
arithmetic is exact decimal arithmetic, and rational arithmetic makes the
embedding executable for concrete solver scripts).

The helper functions `find_limit_point_in_list` and `interpolate_list` are
imported by `cross_section_2d.py` from the package root, which is not part of
the provided sources; they are modelled from the spec (§4.2) and marked as such.
-/

/-! ## Material models (`ACI_strain_compatibility.py`, lines 5–83) -/

/-- Elastic-perfectly-plastic reinforcement material
(`AciStrainCompatibilitySteelMaterial`, source lines 5–30). -/
structure AciStrainCompatibilitySteelMaterial where
  Fy : ℝ
  Es : ℝ

/-- Yield strain (`ey` property, source lines 11–14). -/
noncomputable def AciStrainCompatibilitySteelMaterial.ey (m : AciStrainCompatibilitySteelMaterial) : ℝ :=
  m.Fy / m.Es

/-- Body of the loop in `AciStrainCompatibilitySteelMaterial.get_stress`
(source lines 22–28): stress of a single strain value. -/
noncomputable def AciStrainCompatibilitySteelMaterial.stress1 (m : AciStrainCompatibilitySteelMaterial)
    (value : ℝ) : ℝ :=
  if value ≤ -m.ey then -m.Fy
  else if value ≤ m.ey then value * m.Es
  else m.Fy

/-- `AciStrainCompatibilitySteelMaterial.get_stress` (source lines 16–30):
maps the strain array to the stress array. -/
noncomputable def AciStrainCompatibilitySteelMaterial.get_stress (m : AciStrainCompatibilitySteelMaterial)
    (strain : List ℝ) : List ℝ :=
  strain.map m.stress1

/-- Python's `str.lower()` (ASCII case folding, character by character). -/
def pyLower (s : String) : String :=
  ⟨s.data.map Char.toLower⟩

/-- Rectangular-stress-block concrete material
(`AciStrainCompatibilityConcreteMaterial`, source lines 33–83). -/
structure AciStrainCompatibilityConcreteMaterial where
  fc : ℝ
  units : String

/-- Class attribute `extreme_concrete_compression_strain = -0.003` (source line 39). -/
noncomputable def AciStrainCompatibilityConcreteMaterial.extreme_concrete_compression_strain : ℝ := -0.003

/-- `beta1` property (source lines 41–67).  Returns `none` where the source
raises `ValueError` for an unsupported unit system. -/
noncomputable def AciStrainCompatibilityConcreteMaterial.beta1
    (m : AciStrainCompatibilityConcreteMaterial) : Option ℝ :=
  if pyLower m.units = "us" then
    some (if m.fc ≤ 4 then 0.85
          else if m.fc ≤ 8 then 0.85 - 0.05 * (m.fc - 4)
          else 0.65)
  else if pyLower m.units = "si" then
    some (if m.fc ≤ 28 then 0.85
          else if m.fc ≤ 55 then 0.85 - 0.05 * (m.fc - 28) / 7
          else 0.65)
  else none

/-- Body of the loop in `AciStrainCompatibilityConcreteMaterial.get_stress`
(source lines 77–81), given the already-computed stress-block onset strain `ecr`. -/
noncomputable def AciStrainCompatibilityConcreteMaterial.stress1 (m : AciStrainCompatibilityConcreteMaterial)
    (ecr : ℝ) (value : ℝ) : ℝ :=
  if value ≤ ecr then -0.85 * m.fc else 0

/-- `AciStrainCompatibilityConcreteMaterial.get_stress` (source lines 69–83):
computes `ecr` from `beta1` (propagating the unsupported-units error) and maps
the strain array to the equivalent stress-block stresses. -/
noncomputable def AciStrainCompatibilityConcreteMaterial.get_stress
    (m : AciStrainCompatibilityConcreteMaterial) (strain : List ℝ) : Option (List ℝ) :=
  m.beta1.map fun b =>
    let ecr := AciStrainCompatibilityConcreteMaterial.extreme_concrete_compression_strain * (1 - b)
    strain.map (m.stress1 ecr)

/-! ## Strain-compatibility engine (`ACI_strain_compatibility.py`, lines 86–210) -/

/-- `BoundaryPoint`: a point on the true material edge with its radius
(spec §3; built by `add_concrete_boundary` / `add_steel_boundary`). -/
structure BoundaryPoint where
  x : ℝ
  y : ℝ
  r : ℝ

/-- Material registry entry: either of the two ACI material classes
(`add_material`, source lines 120–134). -/
inductive AciMaterial where
  | steel (m : AciStrainCompatibilitySteelMaterial)
  | concrete (m : AciStrainCompatibilityConcreteMaterial)

/-- The per-value stress function of a registered material.  For concrete this
evaluates `beta1` first (as `get_stress` does before its loop), so an
unsupported unit system yields `none` even when no fiber uses the material. -/
noncomputable def AciMaterial.stressFun : AciMaterial → Option (ℝ → ℝ)
  | .steel m => some m.stress1
  | .concrete m => m.beta1.map fun b =>
      m.stress1 (AciStrainCompatibilityConcreteMaterial.extreme_concrete_compression_strain * (1 - b))

/-- State of an `AciStrainCompatibility` object after `add_*` calls and
`build_data` (source lines 86–134, 177–180): boundary-point registries,
material registry (a dict keyed by fiber material id), and the fiber data
`(A, x, y, m)` plus `uniq_mats` supplied by the external fiber section. -/
structure AciStrainCompatibility where
  concrete_boundary : List BoundaryPoint
  steel_boundary : List BoundaryPoint
  materials : List (ℕ × AciMaterial)
  A : List ℝ
  x : List ℝ
  y : List ℝ
  m : List ℕ
  uniq_mats : List ℕ

/-- Class attribute `extreme_concrete_compression_strain = -0.003` (source line 103). -/
noncomputable def AciStrainCompatibility.extreme_concrete_compression_strain : ℝ := -0.003

/-- Class attribute `default_tensile_strain = 0.005` (source line 104). -/
noncomputable def AciStrainCompatibility.default_tensile_strain : ℝ := 0.005

/-- Dict lookup `self._materials[i]`; `none` models the `KeyError` for an
unregistered material id. -/
noncomputable def AciStrainCompatibility.lookupMat (S : AciStrainCompatibility) (i : ℕ) :
    Option AciMaterial :=
  (S.materials.find? (fun p => p.1 = i)).map Prod.snd

/-- `extreme_concrete_compression_fiber` (source lines 136–147): the algebraic
minimum over the concrete boundary points of the signed perpendicular distance
to the neutral-axis line, offset by the point's radius.  `none` models the
`ValueError` `np.amin` raises on an empty registry. -/
noncomputable def AciStrainCompatibility.extreme_concrete_compression_fiber
    (S : AciStrainCompatibility) (xpt ypt angle : ℝ) : Option ℝ :=
  let a := Real.sin angle
  let b := -(Real.cos angle)
  let c := -(Real.sin angle) * xpt + Real.cos angle * ypt
  (S.concrete_boundary.map (fun p => a * p.x + b * p.y + c - p.r)).min?

/-- `extreme_steel_tension_fiber` (source lines 149–160): the algebraic maximum
over the steel boundary points of the signed perpendicular distance, offset
oppositely by radius. -/
noncomputable def AciStrainCompatibility.extreme_steel_tension_fiber
    (S : AciStrainCompatibility) (xpt ypt angle : ℝ) : Option ℝ :=
  let a := Real.sin angle
  let b := -(Real.cos angle)
  let c := -(Real.sin angle) * xpt + Real.cos angle * ypt
  (S.steel_boundary.map (fun p => a * p.x + b * p.y + c + p.r)).max?

/-- `extreme_steel_tensile_strain` (source lines 162–175).  Note that the
source evaluates `extreme_steel_tension_fiber` before branching on the sign of
the concrete distance, so an empty steel-boundary registry is an error even on
the default-strain branch. -/
noncomputable def AciStrainCompatibility.extreme_steel_tensile_strain
    (S : AciStrainCompatibility) (xpt ypt angle : ℝ) : Option ℝ :=
  match S.extreme_concrete_compression_fiber xpt ypt angle,
        S.extreme_steel_tension_fiber xpt ypt angle with
  | some yc, some yt =>
      some (if yc < 0 then yt * (AciStrainCompatibility.extreme_concrete_compression_strain / yc)
            else AciStrainCompatibility.default_tensile_strain)
  | _, _ => none

/-- Elementwise form of the numpy fancy-indexed assignment
`stress[ind] = materials[i].get_stress(strain[ind])` (source line 203): each
fiber whose material id equals `i` has its stress entry replaced. -/
noncomputable def updStress (f : ℝ → ℝ) (i : ℕ) :
    List ℕ → List ℝ → List ℝ → List ℝ
  | mj :: ms, sj :: ss, cj :: cs => (if mj = i then f sj else cj) :: updStress f i ms ss cs
  | _, _, stress => stress

/-- The material loop of `compute_point` (source lines 200–203): for each id in
`uniq_mats`, look the material up (the dict raises on a missing id), evaluate
its stress function (concrete evaluates `beta1`, which can raise), and assign
the stresses of the matching fibers. -/
noncomputable def applyMats (lookup : ℕ → Option AciMaterial) :
    List ℕ → List ℕ → List ℝ → List ℝ → Option (List ℝ)
  | [], _, _, stress => some stress
  | i :: rest, ms, strain, stress =>
    match (lookup i).bind AciMaterial.stressFun with
    | none => none
    | some f => applyMats lookup rest ms strain (updStress f i ms strain stress)

/-- The signed perpendicular distance `a·x + b·y + c` from the neutral-axis
line through `(xpt, ypt)` at `angle` to the point `(px, py)`: the common
`a, b, c` computation of source lines 141–143, 154–156 and 190–192. -/
noncomputable def lineDist (xpt ypt angle px py : ℝ) : ℝ :=
  Real.sin angle * px + -(Real.cos angle) * py +
    (-(Real.sin angle) * xpt + Real.cos angle * ypt)

/-- The strain field of `compute_point` (source lines 193–197): linear in the
perpendicular distance, scaled by `extreme_concrete_compression_strain / y_ecf`,
when the extreme concrete distance `y_ecf` is negative; the constant
`default_tensile_strain` for every fiber otherwise. -/
noncomputable def fiberStrains (S : AciStrainCompatibility) (xpt ypt angle y_ecf : ℝ) :
    List ℝ :=
  if y_ecf < 0 then
    List.zipWith
      (fun xi yi =>
        AciStrainCompatibility.extreme_concrete_compression_strain / y_ecf *
          lineDist xpt ypt angle xi yi)
      S.x S.y
  else
    List.replicate S.m.length AciStrainCompatibility.default_tensile_strain

/-- `compute_point` (source lines 182–210): strain field from the neutral-axis
geometry, stresses via the material registry grouped by material id, and the
integrated `(P, Mx, My, extreme_tensile_strain)`. -/
noncomputable def AciStrainCompatibility.compute_point (S : AciStrainCompatibility)
    (xpt ypt angle : ℝ) : Option (ℝ × ℝ × ℝ × ℝ) :=
  match S.extreme_concrete_compression_fiber xpt ypt angle with
  | none => none
  | some y_ecf =>
    match applyMats S.lookupMat S.uniq_mats S.m (fiberStrains S xpt ypt angle y_ecf)
        (List.replicate S.m.length 0) with
    | none => none
    | some stress =>
      match S.extreme_steel_tensile_strain xpt ypt angle with
      | none => none
      | some et =>
        some ((List.zipWith (fun si ai => si * ai) stress S.A).sum,
              (List.zipWith (fun si p => si * p.1 * -p.2) stress (S.A.zip S.y)).sum,
              (List.zipWith (fun si p => si * p.1 * p.2) stress (S.A.zip S.x)).sum,
              et)

/-- Reference form of the stress list after the grouped material loop of
`compute_point`: fiber `j` carries `F (m j) (strain j)` if its material id is
in the processed list `l`, and its prior entry otherwise. -/
noncomputable def groupedStress (F : ℕ → ℝ → ℝ) (l : List ℕ) :
    List ℕ → List ℝ → List ℝ → List ℝ
  | mj :: ms, sj :: ss, cj :: cs =>
      (if mj ∈ l then F mj sj else cj) :: groupedStress F l ms ss cs
  | _, _, stress => stress

instance : Std.Antisymm (fun (x1 x2 : ℝ) => x1 ≤ x2) :=
  ⟨@fun _ _ h1 h2 => le_antisymm h1 h2⟩

/-! ## Adaptive continuation controller (`cross_section_2d.py`)

The external OpenSees solver is opaque: the embedding abstracts it as
 * a convergence script `conv : ℕ → OpsSettings → Bool` — whether `ops.analyze(1)`
   converges when the model has recorded `n` response steps so far and the
   solver is configured with the given algorithm/test-tolerance/integrator, and
 * an observation oracle `obs : ℕ → ObsQ` — the quantities the recorder reads
   (`getTime`, lowest eigenvalue, `eleForce`, section strains) after `n`
   response steps have been recorded.
All controller arithmetic is exact decimal arithmetic, embedded over `ℚ`. -/

/-- Iteration algorithms the controller switches between
(`ops.algorithm(...)`, source lines 87, 134, 139, 144, ...). -/
inductive OpsAlgorithm where
  | newton
  | modifiedNewton
  | krylovNewton
deriving DecidableEq

/-- Integrator configuration (`ops.integrator(...)`): load control with an
increment, or displacement control on a node/dof with an increment. -/
inductive OpsIntegrator where
  | loadControl (incr : ℚ)
  | dispControl (node dof : ℕ) (incr : ℚ)
deriving DecidableEq

/-- The solver configuration the controller mutates: iteration algorithm,
convergence-test tolerance (`ops.test('NormUnbalance', tol, 10)`), and
integrator. -/
structure OpsSettings where
  algorithm : OpsAlgorithm
  tol : ℚ
  integrator : OpsIntegrator
deriving DecidableEq

/-- One guarded retry `if ok != 0: <reconfigure>; ok = ops.analyze(1)`:
if the previous attempt converged nothing happens, otherwise the solver is
reconfigured to `s2` and re-run. -/
def attemptIf (conv : OpsSettings → Bool) (ok : Bool) (s s2 : OpsSettings) :
    Bool × OpsSettings :=
  if ok then (ok, s) else (conv s2, s2)

/-- The per-increment retry ladder (source lines 108–146 for the proportional
path, 257–305 for the non-proportional path).  `retryIntegrator` is how a
step-size retry configures the integrator (`LoadControl` on the proportional
path, `DisplacementControl` on node 1 dof 3 on the non-proportional path) and
`tolRelax` is the tolerance used by the final `KrylovNewton` attempt
(`1e-2` proportional, `1e-4` non-proportional).  Returns the final convergence
flag, the (possibly permanently reduced) baseline step size, and the solver
settings left in effect after the attempts. -/
def ladder (conv : OpsSettings → Bool) (try_smaller_steps : Bool)
    (retryIntegrator : ℚ → OpsIntegrator) (tolRelax : ℚ)
    (incr : ℚ) (s0 : OpsSettings) : Bool × ℚ × OpsSettings :=
  let ok := conv s0
  let r :=
    if try_smaller_steps then
      let a1 := attemptIf conv ok s0 { s0 with integrator := retryIntegrator (incr / 10) }
      let a2 := attemptIf conv a1.1 a1.2 { a1.2 with integrator := retryIntegrator (incr / 100) }
      let a3 := attemptIf conv a2.1 a2.2 { a2.2 with integrator := retryIntegrator (incr / 1000) }
      let incr3 := if !a2.1 && a3.1 then incr / 10 else incr
      let a4 := attemptIf conv a3.1 a3.2 { a3.2 with integrator := retryIntegrator (incr / 10000) }
      let incr4 := if !a3.1 && a4.1 then incr / 10 else incr3
      (a4.1, incr4, a4.2)
    else
      (ok, incr, s0)
  let a5 := attemptIf conv r.1 r.2.2 { r.2.2 with algorithm := .modifiedNewton }
  let a6 := attemptIf conv a5.1 a5.2 { a5.2 with algorithm := .krylovNewton }
  let a7 := attemptIf conv a6.1 a6.2 { a6.2 with algorithm := .krylovNewton, tol := tolRelax }
  (a7.1, r.2.1, a7.2)

/-- The exit messages `run_ops_analysis` assigns to `results.exit_message`. -/
inductive ExitMsg where
  | analysisFailed
  | analysisFailedInVerticalLoading
  | loadDropLimitReached
  | eigenvalueLimitReached
  | concreteStrainLimitReached
  | steelStrainLimitReached
deriving DecidableEq

/-- The exact message strings assigned in the source. -/
def ExitMsg.text : ExitMsg → String
  | .analysisFailed => "Analysis Failed"
  | .analysisFailedInVerticalLoading => "Analysis Failed In Vertical Loading"
  | .loadDropLimitReached => "Load Drop Limit Reached"
  | .eigenvalueLimitReached => "Eigenvalue Limit Reached"
  | .concreteStrainLimitReached => "Extreme Compressive Concrete Fiber Strain Limit Reached"
  | .steelStrainLimitReached => "Extreme Steel Fiber Strain Limit Reached"

/-- What the recorder reads from the solver after a converged increment. -/
structure ObsQ where
  time : ℚ
  eig : ℚ
  force : ℚ
  concStrain : ℚ
  steelStrain : ℚ

/-- The five response-history series of `AnalysisResults`
(source lines 47–53). -/
structure AnalysisResultsQ where
  applied_axial_load : List ℚ := []
  maximum_abs_moment : List ℚ := []
  lowest_eigenvalue : List ℚ := []
  maximum_concrete_compression_strain : List ℚ := []
  maximum_steel_strain : List ℚ := []

/-- The recorder of the proportional path (source lines 92–102) and of the
vertical phase of the non-proportional path (source lines 202–212), which is
textually identical: applied load := current time, moment entry := 0. -/
def recordProp (o : ObsQ) (r : AnalysisResultsQ) : AnalysisResultsQ :=
  { applied_axial_load := r.applied_axial_load ++ [o.time]
    maximum_abs_moment := r.maximum_abs_moment ++ [0]
    lowest_eigenvalue := r.lowest_eigenvalue ++ [o.eig]
    maximum_concrete_compression_strain := r.maximum_concrete_compression_strain ++ [o.concStrain]
    maximum_steel_strain := r.maximum_steel_strain ++ [o.steelStrain] }

/-- The recorder of the lateral phase of the non-proportional path (source
lines 238–248): applied load := the fixed axial load `P`, moment entry :=
`abs(ops.eleForce(1, 3))`. -/
def recordLateral (P : ℚ) (o : ObsQ) (r : AnalysisResultsQ) : AnalysisResultsQ :=
  { applied_axial_load := r.applied_axial_load ++ [P]
    maximum_abs_moment := r.maximum_abs_moment ++ [|o.force|]
    lowest_eigenvalue := r.lowest_eigenvalue ++ [o.eig]
    maximum_concrete_compression_strain := r.maximum_concrete_compression_strain ++ [o.concStrain]
    maximum_steel_strain := r.maximum_steel_strain ++ [o.steelStrain] }

/-- The four monitors of the proportional path, in source order
(lines 159–183): load drop, eigenvalue, concrete strain, steel strain.  A
`none` threshold disables its monitor.  Returns the first monitor that fires
and the updated running maximum of the applied load (which is only updated
when the load-drop monitor is enabled, line 160–162). -/
def checkLimitsProp
    (percent_load_drop_limit eigenvalue_limit concrete_strain_limit steel_strain_limit : Option ℚ)
    (current_applied_axial_load maximum_applied_axial_load eig conc steel : ℚ) :
    Option ExitMsg × ℚ :=
  let m2 := match percent_load_drop_limit with
    | some _ => max maximum_applied_axial_load current_applied_axial_load
    | none => maximum_applied_axial_load
  let e1 : Option ExitMsg := match percent_load_drop_limit with
    | some d => if current_applied_axial_load < (1 - d) * m2 then some .loadDropLimitReached else none
    | none => none
  let e2 := e1 <|> (match eigenvalue_limit with
    | some l => if eig < l then some .eigenvalueLimitReached else none
    | none => none)
  let e3 := e2 <|> (match concrete_strain_limit with
    | some l => if conc < l then some .concreteStrainLimitReached else none
    | none => none)
  let e4 := e3 <|> (match steel_strain_limit with
    | some l => if l < steel then some .steelStrainLimitReached else none
    | none => none)
  (e4, m2)

/-- The four monitors of the non-proportional lateral phase, in source order
(lines 318–342).  The load-drop monitor tracks the current analysis time (the
horizontal load factor), and the eigenvalue monitor — unlike the proportional
path — compares the last recorded lowest eigenvalue against the literal `0`
(source line 328), using `eigenvalue_limit` only to enable the check. -/
def checkLimitsNonprop
    (percent_load_drop_limit eigenvalue_limit concrete_strain_limit steel_strain_limit : Option ℚ)
    (current_time maximum_time eig conc steel : ℚ) :
    Option ExitMsg × ℚ :=
  let m2 := match percent_load_drop_limit with
    | some _ => max maximum_time current_time
    | none => maximum_time
  let e1 : Option ExitMsg := match percent_load_drop_limit with
    | some d => if current_time < (1 - d) * m2 then some .loadDropLimitReached else none
    | none => none
  let e2 := e1 <|> (match eigenvalue_limit with
    | some _ => if eig < 0 then some .eigenvalueLimitReached else none
    | none => none)
  let e3 := e2 <|> (match concrete_strain_limit with
    | some l => if conc < l then some .concreteStrainLimitReached else none
    | none => none)
  let e4 := e3 <|> (match steel_strain_limit with
    | some l => if l < steel then some .steelStrainLimitReached else none
    | none => none)
  (e4, m2)

/-- Modelled from the spec: `find_limit_point_in_list` is imported from the
package root, which is not among the provided sources.  Per spec §4.2 it finds
the last index whose value equals/exceeds the target and the fractional
position of the crossing between that step and the next (0 when the target is
attained exactly at the index or no next step exists). -/
def find_limit_point_in_list (l : List ℚ) (target : ℚ) : ℕ × ℚ :=
  let ind := (List.range l.length).foldl (fun acc i => if target ≤ l.getD i 0 then i else acc) 0
  let x :=
    if ind + 1 < l.length then
      let a := l.getD ind 0
      let b := l.getD (ind + 1) 0
      if b = a then 0 else (target - a) / (b - a)
    else 0
  (ind, x)

/-- Modelled from the spec: `interpolate_list` is imported from the package
root, which is not among the provided sources.  Per spec §4.2 it applies the
fractional position linearly between steps `ind` and `ind + 1` of the series
(re-interpolating at an integral index returns the recorded value unchanged,
per the idempotence property of §8). -/
def interpolate_list (l : List ℚ) (ind : ℕ) (x : ℚ) : ℚ :=
  if ind + 1 < l.length then
    l.getD ind 0 + x * (l.getD (ind + 1) 0 - l.getD ind 0)
  else l.getD ind 0

/-- Python's substring containment `sub in s`. -/
def pyContains (sub s : String) : Bool :=
  (List.range (s.toList.length + 1)).any fun i => sub.toList.isPrefixOf (s.toList.drop i)

/-- The limit-point dispatcher `find_limit_point` (source lines 56–74): selects
the series and target by substring-matching the exit message, obtains one
`(ind, x)` fractional position from it, and interpolates both the applied-load
and moment series at that position.  `none` models the exceptions: the
`Exception('Unknown limit point')` of the final branch, `max([])` on an empty
moment series, and passing a `None` threshold into the interpolation helper. -/
def find_limit_point (msg : String)
    (applied moment eigl concl steell : List ℚ)
    (eigenvalue_limit concrete_strain_limit steel_strain_limit : Option ℚ) :
    Option (ℚ × ℚ) :=
  if pyContains "Analysis Failed" msg then
    match moment.max? with
    | none => none
    | some mx =>
      let p := find_limit_point_in_list moment mx
      some (interpolate_list applied p.1 p.2, interpolate_list moment p.1 p.2)
  else if pyContains "Eigenvalue Limit" msg then
    match eigenvalue_limit with
    | none => none
    | some l =>
      let p := find_limit_point_in_list eigl l
      some (interpolate_list applied p.1 p.2, interpolate_list moment p.1 p.2)
  else if pyContains "Extreme Compressive Concrete Fiber Strain Limit Reached" msg then
    match concrete_strain_limit with
    | none => none
    | some l =>
      let p := find_limit_point_in_list concl l
      some (interpolate_list applied p.1 p.2, interpolate_list moment p.1 p.2)
  else if pyContains "Extreme Steel Fiber Strain Limit Reached" msg then
    match steel_strain_limit with
    | none => none
    | some l =>
      let p := find_limit_point_in_list steell l
      some (interpolate_list applied p.1 p.2, interpolate_list moment p.1 p.2)
  else if pyContains "Load Drop Limit Reached" msg then
    match moment.max? with
    | none => none
    | some mx =>
      let p := find_limit_point_in_list moment mx
      some (interpolate_list applied p.1 p.2, interpolate_list moment p.1 p.2)
  else none

/-- Outcome of one `run_ops_analysis` call: the recorded series, the exit
message, and the interpolated limit point (`none` when the vertical phase
failed before any limit-point search, or when `find_limit_point` raised). -/
structure RunResultQ where
  res : AnalysisResultsQ
  exit_message : ExitMsg
  limit_point : Option (ℚ × ℚ)

/-- Mutable state carried around the proportional `while True` loop
(source lines 106–183). -/
structure PropLoopState where
  res : AnalysisResultsQ
  maximum_applied_axial_load : ℚ
  load_incr_factor : ℚ
  settings : OpsSettings

/-- The proportional `while True` loop (source lines 107–183), with fuel: each
iteration runs the retry ladder; on failure the loop exits with
`Analysis Failed`; on success the analysis options are reset, a step is
recorded, and the four monitors run.  `none` means the fuel ran out before an
exit condition fired (the source would still be looping). -/
def propLoop (conv : ℕ → OpsSettings → Bool) (obs : ℕ → ObsQ)
    (percent_load_drop_limit eigenvalue_limit concrete_strain_limit steel_strain_limit : Option ℚ)
    (try_smaller_steps : Bool) :
    ℕ → PropLoopState → Option (AnalysisResultsQ × ExitMsg)
  | 0, _ => none
  | fuel + 1, st =>
    let n := st.res.applied_axial_load.length
    let step := ladder (conv n) try_smaller_steps .loadControl (1 / 100)
      st.load_incr_factor st.settings
    if step.1 then
      let settings2 : OpsSettings := ⟨.newton, 1 / 1000, .loadControl step.2.1⟩
      let res2 := recordProp (obs n) st.res
      let chk := checkLimitsProp percent_load_drop_limit eigenvalue_limit
        concrete_strain_limit steel_strain_limit
        (res2.applied_axial_load.getLast?.getD 0) st.maximum_applied_axial_load
        (res2.lowest_eigenvalue.getLast?.getD 0)
        (res2.maximum_concrete_compression_strain.getLast?.getD 0)
        (res2.maximum_steel_strain.getLast?.getD 0)
      match chk.1 with
      | some e => some (res2, e)
      | none => propLoop conv obs percent_load_drop_limit eigenvalue_limit
          concrete_strain_limit steel_strain_limit try_smaller_steps fuel
          ⟨res2, chk.2, step.2.1, settings2⟩
    else
      some (st.res, .analysisFailed)

/-- The `'proportional_limit_point'` branch of `run_ops_analysis` (source
lines 77–186): initial unchecked `ops.analyze(1)`, initial record, the
monitored loop, and the limit-point search on exit. -/
def run_ops_analysis_proportional (conv : ℕ → OpsSettings → Bool) (obs : ℕ → ObsQ)
    (load_incr_factor : ℚ)
    (eigenvalue_limit percent_load_drop_limit concrete_strain_limit steel_strain_limit : Option ℚ)
    (try_smaller_steps : Bool) (fuel : ℕ) : Option RunResultQ :=
  let s0 : OpsSettings := ⟨.newton, 1 / 1000, .loadControl load_incr_factor⟩
  let _initialAnalyze := conv 0 s0
  let res0 := recordProp (obs 0) {}
  match propLoop conv obs percent_load_drop_limit eigenvalue_limit concrete_strain_limit
      steel_strain_limit try_smaller_steps fuel ⟨res0, 0, load_incr_factor, s0⟩ with
  | none => none
  | some re =>
    some ⟨re.1, re.2,
      find_limit_point re.2.text re.1.applied_axial_load re.1.maximum_abs_moment
        re.1.lowest_eigenvalue re.1.maximum_concrete_compression_strain
        re.1.maximum_steel_strain eigenvalue_limit concrete_strain_limit steel_strain_limit⟩

/-- The preliminary vertical-load phase of the non-proportional path (source
lines 217–224): a fixed number of equal increments, each a single `analyze`
call with no retry ladder; a nonzero status aborts the run immediately.
Returns the recorded series and whether all increments converged. -/
def vertLoop (conv : ℕ → OpsSettings → Bool) (obs : ℕ → ObsQ) (s : OpsSettings) :
    ℕ → AnalysisResultsQ → AnalysisResultsQ × Bool
  | 0, r => (r, true)
  | k + 1, r =>
    let n := r.applied_axial_load.length
    if conv n s then vertLoop conv obs s k (recordProp (obs n) r)
    else (r, false)

/-- Mutable state carried around the non-proportional lateral `while True`
loop (source lines 254–342). -/
structure LateralLoopState where
  res : AnalysisResultsQ
  maximum_time : ℚ
  disp_incr_factor : ℚ
  settings : OpsSettings

/-- The non-proportional lateral `while True` loop (source lines 256–342),
with fuel.  The retry ladder configures `DisplacementControl` on node 1 dof 3
and its final attempt uses tolerance `1e-4`; on success the options are reset
(to `LoadControl`, as the source does on line 311), a step is recorded, and
the four monitors run with the load-drop monitor tracking the analysis time. -/
def lateralLoop (conv : ℕ → OpsSettings → Bool) (obs : ℕ → ObsQ) (P : ℚ)
    (percent_load_drop_limit eigenvalue_limit concrete_strain_limit steel_strain_limit : Option ℚ)
    (try_smaller_steps : Bool) :
    ℕ → LateralLoopState → Option (AnalysisResultsQ × ExitMsg)
  | 0, _ => none
  | fuel + 1, st =>
    let n := st.res.applied_axial_load.length
    let step := ladder (conv n) try_smaller_steps (fun q => .dispControl 1 3 q) (1 / 10000)
      st.disp_incr_factor st.settings
    if step.1 then
      let settings2 : OpsSettings := ⟨.newton, 1 / 1000, .loadControl step.2.1⟩
      let res2 := recordLateral P (obs n) st.res
      let chk := checkLimitsNonprop percent_load_drop_limit eigenvalue_limit
        concrete_strain_limit steel_strain_limit
        (obs n).time st.maximum_time
        (res2.lowest_eigenvalue.getLast?.getD 0)
        (res2.maximum_concrete_compression_strain.getLast?.getD 0)
        (res2.maximum_steel_strain.getLast?.getD 0)
      match chk.1 with
      | some e => some (res2, e)
      | none => lateralLoop conv obs P percent_load_drop_limit eigenvalue_limit
          concrete_strain_limit steel_strain_limit try_smaller_steps fuel
          ⟨res2, chk.2, step.2.1, settings2⟩
    else
      some (st.res, .analysisFailed)

/-- The `'nonproportional_limit_point'` branch of `run_ops_analysis` (source
lines 188–345): vertical phase (failure aborts immediately with no limit-point
search), then the monitored lateral phase and the limit-point search. -/
def run_ops_analysis_nonproportional (conv : ℕ → OpsSettings → Bool) (obs : ℕ → ObsQ)
    (P : ℚ) (num_steps_vertical : ℕ) (disp_incr_factor : ℚ)
    (eigenvalue_limit percent_load_drop_limit concrete_strain_limit steel_strain_limit : Option ℚ)
    (try_smaller_steps : Bool) (fuel : ℕ) : Option RunResultQ :=
  let sV : OpsSettings := ⟨.newton, 1 / 1000, .loadControl (P / num_steps_vertical)⟩
  let res0 := recordProp (obs 0) {}
  match vertLoop conv obs sV num_steps_vertical res0 with
  | (res, false) => some ⟨res, .analysisFailedInVerticalLoading, none⟩
  | (res, true) =>
    let sL : OpsSettings := ⟨.newton, 1 / 1000, .dispControl 2 3 disp_incr_factor⟩
    let res1 := recordLateral P (obs res.applied_axial_load.length) res
    match lateralLoop conv obs P percent_load_drop_limit eigenvalue_limit
        concrete_strain_limit steel_strain_limit try_smaller_steps fuel
        ⟨res1, 0, disp_incr_factor, sL⟩ with
    | none => none
    | some re =>
      some ⟨re.1, re.2,
        find_limit_point re.2.text re.1.applied_axial_load re.1.maximum_abs_moment
          re.1.lowest_eigenvalue re.1.maximum_concrete_compression_strain
          re.1.maximum_steel_strain eigenvalue_limit concrete_strain_limit steel_strain_limit⟩

/-- The non-proportional sweep loop of `run_ops_interaction` (source lines
365–370), iterating `i = 1 .. num_points - 1` (`k` is the remaining iteration
count).  Each iteration runs a non-proportional analysis at the linearly
spaced axial load `P0 * (num_points - 1 - i) / (num_points - 1)` and appends
`(iP, max(maximum_abs_moment))`.  `some (.error ())` models the `ValueError`
Python's `max` raises on an empty series. -/
def interactionLoop (conv : ℕ → ℕ → OpsSettings → Bool) (obs : ℕ → ℕ → ObsQ)
    (num_points : ℕ) (P0 : ℚ) (fuel : ℕ) :
    ℕ → ℕ → List ℚ × List ℚ → Option (Except Unit (List ℚ × List ℚ))
  | 0, _, PM => some (.ok PM)
  | k + 1, i, PM =>
    let iP := P0 * ((num_points : ℚ) - 1 - (i : ℚ)) / ((num_points : ℚ) - 1)
    match run_ops_analysis_nonproportional (conv i) (obs i) iP 20 (1 / 10000000)
        (some 0) (some (5 / 100)) (some (-(1 / 100))) (some (5 / 100)) true fuel with
    | none => none
    | some r =>
      match r.res.maximum_abs_moment.max? with
      | none => some (.error ())
      | some mm => interactionLoop conv obs num_points P0 fuel k (i + 1)
          (PM.1 ++ [iP], PM.2 ++ [mm])

/-- `run_ops_interaction` (source lines 350–372): one proportional axial-only
analysis (all other options at their defaults) establishing
`P = [max(results.applied_axial_load)]` and `M = [0]`, then the guard
`if P in [None, [None]]: raise ValueError(...)` — modelled as `some (.error ())`
exactly when the axial-load series has no maximum (the guard can otherwise
never fire, since a `max` over floats is never `None`) — then `num_points - 1`
non-proportional analyses.  The per-run solver scripts and oracles are indexed
by run number (`ops.wipe()` rebuilds the model before each run). -/
def run_ops_interaction (conv : ℕ → ℕ → OpsSettings → Bool) (obs : ℕ → ℕ → ObsQ)
    (num_points : ℕ) (prop_load_incr_factor nonprop_load_incr_factor : ℚ) (fuel : ℕ) :
    Option (Except Unit (List ℚ × List ℚ)) :=
  match run_ops_analysis_proportional (conv 0) (obs 0) prop_load_incr_factor
      (some 0) (some (5 / 100)) (some (-(1 / 100))) (some (5 / 100)) true fuel with
  | none => none
  | some r0 =>
    match r0.res.applied_axial_load.max? with
    | none => some (.error ())
    | some p0 => interactionLoop conv obs num_points p0 fuel (num_points - 1) 1 ([p0], [0])

/-- Reference form of the monitor cascade (spec §4.1): the four monitors in the
fixed order load-drop, eigenvalue, concrete strain, steel strain; the first
condition that holds wins. -/
def monitorVerdict (dropFires eigFires concFires steelFires : Bool) : Option ExitMsg :=
  if dropFires then some .loadDropLimitReached
  else if eigFires then some .eigenvalueLimitReached
  else if concFires then some .concreteStrainLimitReached
  else if steelFires then some .steelStrainLimitReached
  else none

/-! ## Theorems: material models (C8, C7) -/

lemma steel_ey_pos (m : AciStrainCompatibilitySteelMaterial)
    (hFy : 0 < m.Fy) (hEs : 0 < m.Es) : 0 < m.ey :=
  div_pos hFy hEs

lemma steel_ey_mul (m : AciStrainCompatibilitySteelMaterial) (hEs : 0 < m.Es) :
    m.ey * m.Es = m.Fy :=
  div_mul_cancel₀ _ hEs.ne'

/-- C8: for a steel material with `Fy > 0` and `Es > 0`, the stress function is
non-decreasing, every output lies in `[-Fy, Fy]`, `stress(0) = 0`, and for
`Fy = 60`, `Es = 29000` the strain array `[-0.01, 0, 0.00207, 0.05]` yields the
stresses `[-60, 0, 60, 60]`. -/
theorem C8_steel_stress_law (m : AciStrainCompatibilitySteelMaterial)
    (hFy : 0 < m.Fy) (hEs : 0 < m.Es) :
    (∀ s1 s2 : ℝ, s1 ≤ s2 → m.stress1 s1 ≤ m.stress1 s2) ∧
    (∀ s : ℝ, -m.Fy ≤ m.stress1 s ∧ m.stress1 s ≤ m.Fy) ∧
    m.stress1 0 = 0 ∧
    AciStrainCompatibilitySteelMaterial.get_stress ⟨60, 29000⟩
      [-0.01, 0, 0.00207, 0.05] = [-60, 0, 60, 60] := by
  have hey := steel_ey_pos m hFy hEs
  have heym := steel_ey_mul m hEs
  refine ⟨?_, ?_, ?_, ?_⟩
  · intro s1 s2 h12
    unfold AciStrainCompatibilitySteelMaterial.stress1
    split_ifs with h1 h2 h3 h4 h5 h6 h7 <;>
      nlinarith [mul_le_mul_of_nonneg_right h12 hEs.le, hEs, hey, heym]
  · intro s
    unfold AciStrainCompatibilitySteelMaterial.stress1
    split_ifs with h1 h2 <;>
      constructor <;> nlinarith [hEs, hey, heym]
  · unfold AciStrainCompatibilitySteelMaterial.stress1
    rw [if_neg (by nlinarith), if_pos hey.le]
    ring
  · unfold AciStrainCompatibilitySteelMaterial.get_stress
    simp only [List.map_cons, List.map_nil]
    unfold AciStrainCompatibilitySteelMaterial.stress1 AciStrainCompatibilitySteelMaterial.ey
    norm_num

/-- Witness for C8 at `Fy = 60`, `Es = 29000`. -/
theorem C8_steel_stress_law_witness :
    (0:ℝ) < 60 ∧ (0:ℝ) < 29000 ∧
    AciStrainCompatibilitySteelMaterial.stress1 ⟨60, 29000⟩ 0 = 0 := by
  refine ⟨by norm_num, by norm_num, ?_⟩
  exact (C8_steel_stress_law ⟨60, 29000⟩ (by norm_num) (by norm_num)).2.2.1

lemma pyLower_us_eq : pyLower "us" = "us" := by decide

lemma pyLower_si_eq : pyLower "si" = "si" := by decide

lemma pyLower_si_ne_us : ¬ pyLower "si" = "us" := by decide

lemma beta1_us (fc : ℝ) :
    (AciStrainCompatibilityConcreteMaterial.beta1 ⟨fc, "us"⟩) =
      some (if fc ≤ 4 then 0.85 else if fc ≤ 8 then 0.85 - 0.05 * (fc - 4) else 0.65) := by
  simp only [AciStrainCompatibilityConcreteMaterial.beta1, pyLower_us_eq, if_pos]

lemma beta1_si (fc : ℝ) :
    (AciStrainCompatibilityConcreteMaterial.beta1 ⟨fc, "si"⟩) =
      some (if fc ≤ 28 then 0.85 else if fc ≤ 55 then 0.85 - 0.05 * (fc - 28) / 7 else 0.65) := by
  simp [AciStrainCompatibilityConcreteMaterial.beta1, pyLower_si_eq, pyLower_si_ne_us]

/-- C7 counterexample: the claim asserts `beta1` is continuous in `fc` for both
unit systems, but the SI table is discontinuous at `fc = 55`: the value there
is `0.85 - 0.05·27/7 = 23/35`, while just above 55 the value is the floor
`0.65`. -/
theorem C7_counterexample_si_discontinuous_at_55 :
    ¬ ContinuousAt
      (fun fc : ℝ => (AciStrainCompatibilityConcreteMaterial.beta1 ⟨fc, "si"⟩).getD 0) 55 := by
  intro h
  have hseq : Filter.Tendsto (fun n : ℕ => (55 : ℝ) + 1 / n) Filter.atTop (nhds 55) := by
    have h0 := tendsto_one_div_atTop_nhds_zero_nat
    have h1 := Filter.Tendsto.const_add (55 : ℝ) h0
    simpa using h1
  have hcomp := (h.tendsto).comp hseq
  have hev : (fun n : ℕ =>
        (AciStrainCompatibilityConcreteMaterial.beta1 ⟨(55 : ℝ) + 1 / n, "si"⟩).getD 0) =ᶠ[Filter.atTop]
      (fun _ => (0.65 : ℝ)) := by
    filter_upwards [Filter.eventually_gt_atTop 0] with n hn
    have h1 : (0 : ℝ) < 1 / n := by positivity
    rw [beta1_si, Option.getD_some, if_neg (by linarith), if_neg (by linarith)]
  have h65 : Filter.Tendsto (fun n : ℕ =>
      (AciStrainCompatibilityConcreteMaterial.beta1 ⟨(55 : ℝ) + 1 / n, "si"⟩).getD 0)
      Filter.atTop (nhds 0.65) :=
    Filter.Tendsto.congr' hev.symm tendsto_const_nhds
  have hvals := tendsto_nhds_unique hcomp h65
  rw [beta1_si, Option.getD_some] at hvals
  norm_num at hvals

/-- C7 amended: `beta1` is continuous in `fc` for US units but has a jump
discontinuity at `fc = 55` for SI units (shown by the counterexample); for both
unit systems it is non-increasing in `fc` with all values in `[0.65, 0.85]`;
US units with `fc = 5` give `beta1 = 0.80`; and any unit string whose
lower-casing is neither `"us"` nor `"si"` is an unsupported-units error. -/
theorem C7_beta1_amended :
    (Continuous fun fc : ℝ =>
      (AciStrainCompatibilityConcreteMaterial.beta1 ⟨fc, "us"⟩).getD 0) ∧
    (∀ u ∈ (["us", "si"] : List String), ∀ a b : ℝ, a ≤ b →
      (AciStrainCompatibilityConcreteMaterial.beta1 ⟨b, u⟩).getD 0 ≤
        (AciStrainCompatibilityConcreteMaterial.beta1 ⟨a, u⟩).getD 0) ∧
    (∀ u ∈ (["us", "si"] : List String), ∀ fc : ℝ, ∀ v : ℝ,
      AciStrainCompatibilityConcreteMaterial.beta1 ⟨fc, u⟩ = some v →
        0.65 ≤ v ∧ v ≤ 0.85) ∧
    (AciStrainCompatibilityConcreteMaterial.beta1 ⟨5, "us"⟩ = some 0.80) ∧
    (∀ s : String, ∀ fc : ℝ, pyLower s ≠ "us" → pyLower s ≠ "si" →
      AciStrainCompatibilityConcreteMaterial.beta1 ⟨fc, s⟩ = none) := by
  refine ⟨?_, ?_, ?_, ?_, ?_⟩
  · have hfun : (fun fc : ℝ =>
        (AciStrainCompatibilityConcreteMaterial.beta1 ⟨fc, "us"⟩).getD 0) =
        fun fc : ℝ => if fc ≤ 4 then (0.85 : ℝ)
          else if fc ≤ 8 then 0.85 - 0.05 * (fc - 4) else 0.65 := by
      funext fc
      rw [beta1_us, Option.getD_some]
    rw [hfun]
    have hinner : Continuous fun fc : ℝ =>
        if fc ≤ 8 then (0.85 : ℝ) - 0.05 * (fc - 4) else 0.65 := by
      apply Continuous.if_le
        (continuous_const.sub (continuous_const.mul (continuous_id.sub continuous_const)))
        continuous_const continuous_id continuous_const
      intro x hx
      simp only [id_eq] at hx
      subst hx
      norm_num
    apply Continuous.if_le continuous_const hinner continuous_id continuous_const
    intro x hx
    simp only [id_eq] at hx
    subst hx
    norm_num
  · intro u hu a b hab
    simp only [List.mem_cons, List.mem_singleton, List.not_mem_nil, or_false] at hu
    rcases hu with hu | hu <;> subst hu
    · rw [beta1_us, beta1_us, Option.getD_some, Option.getD_some]
      split_ifs <;> linarith
    · rw [beta1_si, beta1_si, Option.getD_some, Option.getD_some]
      split_ifs <;> linarith
  · intro u hu fc v hv
    simp only [List.mem_cons, List.mem_singleton, List.not_mem_nil, or_false] at hu
    rcases hu with hu | hu <;> subst hu
    · rw [beta1_us, Option.some_inj] at hv
      subst hv
      split_ifs <;> constructor <;> linarith
    · rw [beta1_si, Option.some_inj] at hv
      subst hv
      split_ifs <;> constructor <;> linarith
  · rw [beta1_us]
    norm_num
  · intro s fc h1 h2
    unfold AciStrainCompatibilityConcreteMaterial.beta1
    rw [if_neg h1, if_neg h2]

/-- Witness for C7's amended theorem: monotonicity at `a = 1 ≤ b = 2` in US
units, the bound at SI `fc = 30`, and the unsupported-units error at "abc". -/
theorem C7_beta1_amended_witness :
    ((AciStrainCompatibilityConcreteMaterial.beta1 ⟨2, "us"⟩).getD 0 ≤
      (AciStrainCompatibilityConcreteMaterial.beta1 ⟨1, "us"⟩).getD 0) ∧
    ((0.65 : ℝ) ≤ 117 / 140 ∧ (117 / 140 : ℝ) ≤ 0.85) ∧
    (AciStrainCompatibilityConcreteMaterial.beta1 ⟨7, "abc"⟩ = none) := by
  refine ⟨?_, ?_, ?_⟩
  · exact C7_beta1_amended.2.1 "us" (by simp) 1 2 (by norm_num)
  · exact C7_beta1_amended.2.2.1 "si" (by simp) 30 (117 / 140)
      (by rw [beta1_si]; norm_num)
  · exact C7_beta1_amended.2.2.2.2 "abc" 7 (by decide) (by decide)

/-! ## Theorems: strain-compatibility engine (C5, C6) -/

lemma min?_spec {l : List ℝ} {v : ℝ} (h : l.min? = some v) :
    v ∈ l ∧ ∀ u ∈ l, v ≤ u := by
  rw [List.min?_eq_some_iff (fun a => le_refl a) (fun a b => min_choice a b)
    (fun a b c => le_min_iff)] at h
  exact h

lemma max?_spec {l : List ℝ} {v : ℝ} (h : l.max? = some v) :
    v ∈ l ∧ ∀ u ∈ l, u ≤ v := by
  rw [List.max?_eq_some_iff (fun a => le_refl a) (fun a b => max_choice a b)
    (fun a b c => max_le_iff)] at h
  exact h

lemma min?_of_ne_nil {α : Type} [Min α] {l : List α} (h : l ≠ []) :
    ∃ v, l.min? = some v := by
  cases l with
  | nil => exact absurd rfl h
  | cons a as => exact ⟨_, rfl⟩

lemma max?_of_ne_nil {α : Type} [Max α] {l : List α} (h : l ≠ []) :
    ∃ v, l.max? = some v := by
  cases l with
  | nil => exact absurd rfl h
  | cons a as => exact ⟨_, rfl⟩

lemma groupedStress_nil (F : ℕ → ℝ → ℝ) :
    ∀ (ms : List ℕ) (ss cs : List ℝ), groupedStress F [] ms ss cs = cs := by
  intro ms
  induction ms with
  | nil => intro ss cs; rfl
  | cons mj ms ih =>
    intro ss cs
    cases ss with
    | nil => rfl
    | cons sj ss =>
      cases cs with
      | nil => rfl
      | cons cj cs => simp [groupedStress, ih]

lemma updStress_groupedStress (F : ℕ → ℝ → ℝ) (i : ℕ) (rest : List ℕ) :
    ∀ (ms : List ℕ) (ss cs : List ℝ),
      groupedStress F rest ms ss (updStress (F i) i ms ss cs) =
        groupedStress F (i :: rest) ms ss cs := by
  intro ms
  induction ms with
  | nil => intro ss cs; rfl
  | cons mj ms ih =>
    intro ss cs
    cases ss with
    | nil => rfl
    | cons sj ss =>
      cases cs with
      | nil => rfl
      | cons cj cs =>
        simp only [updStress, groupedStress, List.mem_cons, ih]
        by_cases hmi : mj = i
        · subst hmi
          by_cases hmr : mj ∈ rest <;> simp [hmr]
        · by_cases hmr : mj ∈ rest <;> simp [hmi, hmr]

lemma applyMats_groupedStress (lookup : ℕ → Option AciMaterial) (F : ℕ → ℝ → ℝ) :
    ∀ (l ms : List ℕ) (ss cs : List ℝ),
      (∀ i ∈ l, (lookup i).bind AciMaterial.stressFun = some (F i)) →
      applyMats lookup l ms ss cs = some (groupedStress F l ms ss cs) := by
  intro l
  induction l with
  | nil =>
    intro ms ss cs _
    rw [groupedStress_nil]
    rfl
  | cons i rest ih =>
    intro ms ss cs hF
    have hi := hF i (List.mem_cons_self i rest)
    unfold applyMats
    rw [hi]
    dsimp only
    rw [ih ms ss (updStress (F i) i ms ss cs) (fun j hj => hF j (List.mem_cons_of_mem i hj))]
    rw [updStress_groupedStress]

lemma groupedStress_all_mem (F : ℕ → ℝ → ℝ) (l : List ℕ) :
    ∀ (ms : List ℕ) (ss cs : List ℝ),
      (∀ m ∈ ms, m ∈ l) → ss.length = ms.length → cs.length = ms.length →
      groupedStress F l ms ss cs = List.zipWith F ms ss := by
  intro ms
  induction ms with
  | nil =>
    intro ss cs _ hss hcs
    rw [List.length_nil, List.length_eq_zero] at hss
    rw [List.length_nil, List.length_eq_zero] at hcs
    subst hss
    subst hcs
    rfl
  | cons mj ms ih =>
    intro ss cs hmem hss hcs
    cases ss with
    | nil => simp at hss
    | cons sj ss =>
      cases cs with
      | nil => simp at hcs
      | cons cj cs =>
        simp only [groupedStress, List.zipWith_cons_cons]
        rw [if_pos (hmem mj (List.mem_cons_self mj ms))]
        rw [ih ss cs (fun j hj => hmem j (List.mem_cons_of_mem mj hj))
          (by simpa using hss) (by simpa using hcs)]

lemma sum_zipWith_const (k : ℝ) :
    ∀ (σ A : List ℝ), σ.length = A.length → (∀ v ∈ σ, v = k) →
      (List.zipWith (fun si ai => si * ai) σ A).sum = k * A.sum := by
  intro σ
  induction σ with
  | nil =>
    intro A hlen _
    rw [List.length_nil, eq_comm, List.length_eq_zero] at hlen
    subst hlen
    simp
  | cons s σ ih =>
    intro A hlen hk
    cases A with
    | nil => simp at hlen
    | cons a A =>
      simp only [List.zipWith_cons_cons, List.sum_cons]
      rw [ih A (by simpa using hlen) (fun v hv => hk v (List.mem_cons_of_mem s hv))]
      rw [hk s (List.mem_cons_self s σ)]
      ring

lemma extreme_steel_tensile_strain_eval (S : AciStrainCompatibility)
    (xpt ypt angle yc yt : ℝ)
    (hyc : S.extreme_concrete_compression_fiber xpt ypt angle = some yc)
    (hyt : S.extreme_steel_tension_fiber xpt ypt angle = some yt) :
    S.extreme_steel_tensile_strain xpt ypt angle =
      some (if yc < 0 then
              yt * (AciStrainCompatibility.extreme_concrete_compression_strain / yc)
            else AciStrainCompatibility.default_tensile_strain) := by
  unfold AciStrainCompatibility.extreme_steel_tensile_strain
  rw [hyc, hyt]

lemma compute_point_eval (S : AciStrainCompatibility) (xpt ypt angle : ℝ)
    (F : ℕ → ℝ → ℝ) (yc et : ℝ)
    (hyc : S.extreme_concrete_compression_fiber xpt ypt angle = some yc)
    (het : S.extreme_steel_tensile_strain xpt ypt angle = some et)
    (hx : S.x.length = S.m.length)
    (hy : S.y.length = S.m.length)
    (hmem : ∀ i ∈ S.m, i ∈ S.uniq_mats)
    (hF : ∀ i ∈ S.uniq_mats, (S.lookupMat i).bind AciMaterial.stressFun = some (F i)) :
    S.compute_point xpt ypt angle =
      some ((List.zipWith (fun si ai => si * ai)
              (List.zipWith F S.m (fiberStrains S xpt ypt angle yc)) S.A).sum,
            (List.zipWith (fun si p => si * p.1 * -p.2)
              (List.zipWith F S.m (fiberStrains S xpt ypt angle yc)) (S.A.zip S.y)).sum,
            (List.zipWith (fun si p => si * p.1 * p.2)
              (List.zipWith F S.m (fiberStrains S xpt ypt angle yc)) (S.A.zip S.x)).sum,
            et) := by
  have hss : (fiberStrains S xpt ypt angle yc).length = S.m.length := by
    unfold fiberStrains
    split_ifs
    · rw [List.length_zipWith, hx, hy, min_self]
    · rw [List.length_replicate]
  have happ := applyMats_groupedStress S.lookupMat F S.uniq_mats S.m
    (fiberStrains S xpt ypt angle yc) (List.replicate S.m.length 0) hF
  rw [groupedStress_all_mem F S.uniq_mats S.m _ _ hmem hss
    (List.length_replicate _ _)] at happ
  unfold AciStrainCompatibility.compute_point
  rw [hyc]
  dsimp only
  rw [happ]
  dsimp only
  rw [het]

/-- C6: for every neutral-axis line and non-empty boundary registries, the
extreme concrete compression fiber distance is the minimum over the concrete
boundary points of (signed perpendicular distance minus radius), the extreme
steel tension fiber distance is the maximum over the steel boundary points of
(signed perpendicular distance plus radius), and `compute_point` returns
`P = Σ(stress·area)`, `Mx = Σ(stress·area·(−y))`, `My = Σ(stress·area·x)` over
all fibers — with each fiber's stress `F` obtained from its own material at its
own strain — together with the extreme tensile strain. -/
theorem C6_extreme_fibers_and_integration (S : AciStrainCompatibility)
    (xpt ypt angle : ℝ) (F : ℕ → ℝ → ℝ)
    (hcb : S.concrete_boundary ≠ [])
    (hsb : S.steel_boundary ≠ [])
    (hx : S.x.length = S.m.length)
    (hy : S.y.length = S.m.length)
    (hmem : ∀ i ∈ S.m, i ∈ S.uniq_mats)
    (hF : ∀ i ∈ S.uniq_mats, (S.lookupMat i).bind AciMaterial.stressFun = some (F i)) :
    (∃ yc, S.extreme_concrete_compression_fiber xpt ypt angle = some yc ∧
      (∃ p ∈ S.concrete_boundary, yc = lineDist xpt ypt angle p.x p.y - p.r) ∧
      ∀ p ∈ S.concrete_boundary, yc ≤ lineDist xpt ypt angle p.x p.y - p.r) ∧
    (∃ yt, S.extreme_steel_tension_fiber xpt ypt angle = some yt ∧
      (∃ p ∈ S.steel_boundary, yt = lineDist xpt ypt angle p.x p.y + p.r) ∧
      ∀ p ∈ S.steel_boundary, lineDist xpt ypt angle p.x p.y + p.r ≤ yt) ∧
    (∀ yc, S.extreme_concrete_compression_fiber xpt ypt angle = some yc →
      ∃ et, S.extreme_steel_tensile_strain xpt ypt angle = some et ∧
        S.compute_point xpt ypt angle =
          some ((List.zipWith (fun si ai => si * ai)
                  (List.zipWith F S.m (fiberStrains S xpt ypt angle yc)) S.A).sum,
                (List.zipWith (fun si p => si * p.1 * -p.2)
                  (List.zipWith F S.m (fiberStrains S xpt ypt angle yc)) (S.A.zip S.y)).sum,
                (List.zipWith (fun si p => si * p.1 * p.2)
                  (List.zipWith F S.m (fiberStrains S xpt ypt angle yc)) (S.A.zip S.x)).sum,
                et)) := by
  have hdefc : S.extreme_concrete_compression_fiber xpt ypt angle =
      (S.concrete_boundary.map (fun p => lineDist xpt ypt angle p.x p.y - p.r)).min? := rfl
  have hdefs : S.extreme_steel_tension_fiber xpt ypt angle =
      (S.steel_boundary.map (fun p => lineDist xpt ypt angle p.x p.y + p.r)).max? := rfl
  have hcb2 : S.concrete_boundary.map (fun p => lineDist xpt ypt angle p.x p.y - p.r) ≠ [] :=
    fun h => hcb (List.map_eq_nil_iff.mp h)
  have hsb2 : S.steel_boundary.map (fun p => lineDist xpt ypt angle p.x p.y + p.r) ≠ [] :=
    fun h => hsb (List.map_eq_nil_iff.mp h)
  obtain ⟨yc0, hyc0⟩ := min?_of_ne_nil hcb2
  obtain ⟨yt0, hyt0⟩ := max?_of_ne_nil hsb2
  refine ⟨⟨yc0, hdefc.trans hyc0, ?_, ?_⟩, ⟨yt0, hdefs.trans hyt0, ?_, ?_⟩, ?_⟩
  · obtain ⟨p, hp, hpe⟩ := List.mem_map.mp (min?_spec hyc0).1
    exact ⟨p, hp, hpe.symm⟩
  · intro p hp
    exact (min?_spec hyc0).2 _ (List.mem_map_of_mem _ hp)
  · obtain ⟨p, hp, hpe⟩ := List.mem_map.mp (max?_spec hyt0).1
    exact ⟨p, hp, hpe.symm⟩
  · intro p hp
    exact (max?_spec hyt0).2 _ (List.mem_map_of_mem _ hp)
  · intro yc hyc
    have hets := extreme_steel_tensile_strain_eval S xpt ypt angle yc yt0 hyc
      (hdefs.trans hyt0)
    exact ⟨_, hets, compute_point_eval S xpt ypt angle F yc _ hyc hets hx hy hmem hF⟩

/-- Witness for C6: a one-fiber steel section with one concrete and one steel
boundary point, evaluated on the neutral axis through the origin at angle 0. -/
theorem C6_extreme_fibers_and_integration_witness :
    let S : AciStrainCompatibility :=
      ⟨[⟨0, 1, 0⟩], [⟨0, -1, 0⟩], [(7, .steel ⟨60, 29000⟩)], [2], [0], [1], [7], [7]⟩
    (∃ yc, S.extreme_concrete_compression_fiber 0 0 0 = some yc ∧
      (∃ p ∈ S.concrete_boundary, yc = lineDist 0 0 0 p.x p.y - p.r) ∧
      ∀ p ∈ S.concrete_boundary, yc ≤ lineDist 0 0 0 p.x p.y - p.r) ∧
    (∃ yt, S.extreme_steel_tension_fiber 0 0 0 = some yt ∧
      (∃ p ∈ S.steel_boundary, yt = lineDist 0 0 0 p.x p.y + p.r) ∧
      ∀ p ∈ S.steel_boundary, lineDist 0 0 0 p.x p.y + p.r ≤ yt) ∧
    (∀ yc, S.extreme_concrete_compression_fiber 0 0 0 = some yc →
      ∃ et, S.extreme_steel_tensile_strain 0 0 0 = some et ∧
        S.compute_point 0 0 0 =
          some ((List.zipWith (fun si ai => si * ai)
                  (List.zipWith (fun _ => AciStrainCompatibilitySteelMaterial.stress1 ⟨60, 29000⟩)
                    S.m (fiberStrains S 0 0 0 yc)) S.A).sum,
                (List.zipWith (fun si p => si * p.1 * -p.2)
                  (List.zipWith (fun _ => AciStrainCompatibilitySteelMaterial.stress1 ⟨60, 29000⟩)
                    S.m (fiberStrains S 0 0 0 yc)) (S.A.zip S.y)).sum,
                (List.zipWith (fun si p => si * p.1 * p.2)
                  (List.zipWith (fun _ => AciStrainCompatibilitySteelMaterial.stress1 ⟨60, 29000⟩)
                    S.m (fiberStrains S 0 0 0 yc)) (S.A.zip S.x)).sum,
                et)) := by
  intro S
  refine C6_extreme_fibers_and_integration S 0 0 0
    (fun _ => AciStrainCompatibilitySteelMaterial.stress1 ⟨60, 29000⟩)
    (by simp [S]) (by simp [S]) rfl rfl ?_ ?_
  · intro i hi
    simpa [S] using hi
  · intro i hi
    simp only [S, List.mem_singleton] at hi
    subst hi
    rfl

lemma beta1_bounds (m : AciStrainCompatibilityConcreteMaterial) (v : ℝ)
    (hv : m.beta1 = some v) : 0.65 ≤ v ∧ v ≤ 0.85 := by
  unfold AciStrainCompatibilityConcreteMaterial.beta1 at hv
  split_ifs at hv
  all_goals simp at hv
  all_goals try subst hv
  all_goals constructor <;> linarith

lemma forall_mem_zipWith {α β γ : Type} {f : α → β → γ} {P : γ → Prop} :
    ∀ {l1 : List α} {l2 : List β}, (∀ a ∈ l1, ∀ b ∈ l2, P (f a b)) →
      ∀ c ∈ List.zipWith f l1 l2, P c := by
  intro l1
  induction l1 with
  | nil => intro l2 _ c hc; simp at hc
  | cons a l1 ih =>
    intro l2 h c hc
    cases l2 with
    | nil => simp at hc
    | cons b l2 =>
      rw [List.zipWith_cons_cons, List.mem_cons] at hc
      rcases hc with hc | hc
      · subst hc
        exact h a (List.mem_cons_self a l1) b (List.mem_cons_self b l2)
      · exact ih (fun a2 ha2 b2 hb2 => h a2 (List.mem_cons_of_mem a ha2) b2
          (List.mem_cons_of_mem b hb2)) c hc

/-- C5: in `compute_point`, a negative extreme concrete distance gives the
linear strain field `extreme_concrete_compression_strain / y_ecf ×
(perpendicular distance)`; a non-negative one assigns the fixed default
tensile strain to every fiber and reports the default as the extreme tensile
strain.  Consequently, for a section whose fibers are all one concrete
material: when the whole strain field is at or beyond `ecr`, `P` equals
`−0.85·fc` times the total concrete area, and when the extreme concrete
distance is non-negative, `P = 0`. -/
theorem C5_strain_field_and_axial_force (S : AciStrainCompatibility)
    (xpt ypt angle : ℝ)
    (cm : AciStrainCompatibilityConcreteMaterial) (cid : ℕ) (b : ℝ)
    (hsb : S.steel_boundary ≠ [])
    (hA : S.A.length = S.m.length)
    (hx : S.x.length = S.m.length)
    (hy : S.y.length = S.m.length)
    (hm : ∀ i ∈ S.m, i = cid)
    (huniq : S.uniq_mats = [cid])
    (hlk : S.lookupMat cid = some (.concrete cm))
    (hb : cm.beta1 = some b) :
    (∀ yc, S.extreme_concrete_compression_fiber xpt ypt angle = some yc → yc < 0 →
      fiberStrains S xpt ypt angle yc =
        List.zipWith (fun xi yi =>
          AciStrainCompatibility.extreme_concrete_compression_strain / yc *
            lineDist xpt ypt angle xi yi) S.x S.y) ∧
    (∀ yc, S.extreme_concrete_compression_fiber xpt ypt angle = some yc → 0 ≤ yc →
      fiberStrains S xpt ypt angle yc =
        List.replicate S.m.length AciStrainCompatibility.default_tensile_strain ∧
      ∀ et, S.extreme_steel_tensile_strain xpt ypt angle = some et →
        et = AciStrainCompatibility.default_tensile_strain) ∧
    (∀ yc, S.extreme_concrete_compression_fiber xpt ypt angle = some yc → yc < 0 →
      (∀ st ∈ fiberStrains S xpt ypt angle yc,
        st ≤ AciStrainCompatibilityConcreteMaterial.extreme_concrete_compression_strain * (1 - b)) →
      ∃ q : ℝ × ℝ × ℝ × ℝ, S.compute_point xpt ypt angle = some q ∧
        q.1 = -0.85 * cm.fc * S.A.sum) ∧
    (∀ yc, S.extreme_concrete_compression_fiber xpt ypt angle = some yc → 0 ≤ yc →
      ∃ q : ℝ × ℝ × ℝ × ℝ, S.compute_point xpt ypt angle = some q ∧ q.1 = 0) := by
  have hdefs : S.extreme_steel_tension_fiber xpt ypt angle =
      (S.steel_boundary.map (fun p => lineDist xpt ypt angle p.x p.y + p.r)).max? := rfl
  have hsb2 : S.steel_boundary.map (fun p => lineDist xpt ypt angle p.x p.y + p.r) ≠ [] :=
    fun h => hsb (List.map_eq_nil_iff.mp h)
  obtain ⟨yt0, hyt0⟩ := max?_of_ne_nil hsb2
  have hmem : ∀ i ∈ S.m, i ∈ S.uniq_mats := by
    intro i hi
    rw [huniq, hm i hi]
    exact List.mem_singleton_self cid
  have hF : ∀ i ∈ S.uniq_mats,
      (S.lookupMat i).bind AciMaterial.stressFun =
        some (cm.stress1
          (AciStrainCompatibilityConcreteMaterial.extreme_concrete_compression_strain * (1 - b))) := by
    rw [huniq]
    intro i hi
    rw [List.mem_singleton] at hi
    rw [hi, hlk]
    have hsf : AciMaterial.stressFun (.concrete cm) =
        some (cm.stress1
          (AciStrainCompatibilityConcreteMaterial.extreme_concrete_compression_strain * (1 - b))) := by
      unfold AciMaterial.stressFun
      dsimp only
      rw [hb]
      rfl
    exact hsf
  refine ⟨?_, ?_, ?_, ?_⟩
  · intro yc _ hneg
    unfold fiberStrains
    rw [if_pos hneg]
  · intro yc hyc hpos
    constructor
    · unfold fiberStrains
      rw [if_neg (not_lt.mpr hpos)]
    · intro et het
      rw [extreme_steel_tensile_strain_eval S xpt ypt angle yc yt0 hyc
        (hdefs.trans hyt0), Option.some_inj] at het
      rw [← het, if_neg (not_lt.mpr hpos)]
  · intro yc hyc hneg hstr
    have hets := extreme_steel_tensile_strain_eval S xpt ypt angle yc yt0 hyc
      (hdefs.trans hyt0)
    refine ⟨_, compute_point_eval S xpt ypt angle _ yc _ hyc hets hx hy hmem hF, ?_⟩
    show (List.zipWith (fun si ai => si * ai) _ S.A).sum = _
    rw [sum_zipWith_const (-0.85 * cm.fc)]
    · rw [List.length_zipWith]
      have hss : (fiberStrains S xpt ypt angle yc).length = S.m.length := by
        unfold fiberStrains
        rw [if_pos hneg, List.length_zipWith, hx, hy, min_self]
      rw [hss, min_self, hA]
    · refine forall_mem_zipWith ?_
      intro a _ st hst
      unfold AciStrainCompatibilityConcreteMaterial.stress1
      rw [if_pos (hstr st hst)]
  · intro yc hyc hpos
    have hets := extreme_steel_tensile_strain_eval S xpt ypt angle yc yt0 hyc
      (hdefs.trans hyt0)
    refine ⟨_, compute_point_eval S xpt ypt angle _ yc _ hyc hets hx hy hmem hF, ?_⟩
    show (List.zipWith (fun si ai => si * ai) _ S.A).sum = _
    have h0 : (0:ℝ) * S.A.sum = 0 := by ring
    rw [sum_zipWith_const 0 _ _ ?_ ?_, h0]
    · rw [List.length_zipWith]
      have hss : (fiberStrains S xpt ypt angle yc).length = S.m.length := by
        unfold fiberStrains
        rw [if_neg (not_lt.mpr hpos), List.length_replicate]
      rw [hss, min_self, hA]
    · refine forall_mem_zipWith ?_
      intro a _ st hst
      unfold fiberStrains at hst
      rw [if_neg (not_lt.mpr hpos)] at hst
      have hstd := List.eq_of_mem_replicate hst
      subst hstd
      unfold AciStrainCompatibilityConcreteMaterial.stress1
      rw [if_neg]
      have hb85 := (beta1_bounds cm b hb).2
      unfold AciStrainCompatibilityConcreteMaterial.extreme_concrete_compression_strain
      unfold AciStrainCompatibility.default_tensile_strain
      intro hcon
      nlinarith

/-- Witness for C5: a one-fiber all-concrete US section.  With the concrete
boundary above the axis (distance −1) and the whole section strained beyond
`ecr`, `P = −0.85·4·2 = −6.8`; with the boundary below the axis (distance 1),
`P = 0`. -/
theorem C5_strain_field_and_axial_force_witness :
    (let S : AciStrainCompatibility :=
      ⟨[⟨0, 1, 0⟩], [⟨0, -1, 0⟩], [(3, .concrete ⟨4, "us"⟩)], [2], [0], [1], [3], [3]⟩
     ∃ q : ℝ × ℝ × ℝ × ℝ, S.compute_point 0 0 0 = some q ∧ q.1 = -6.8) ∧
    (let S2 : AciStrainCompatibility :=
      ⟨[⟨0, -1, 0⟩], [⟨0, -1, 0⟩], [(3, .concrete ⟨4, "us"⟩)], [2], [0], [1], [3], [3]⟩
     ∃ q : ℝ × ℝ × ℝ × ℝ, S2.compute_point 0 0 0 = some q ∧ q.1 = 0) := by
  constructor
  · intro S
    have hb : (AciStrainCompatibilityConcreteMaterial.beta1 ⟨4, "us"⟩) = some 0.85 := by
      rw [beta1_us]
      norm_num
    have hyc : S.extreme_concrete_compression_fiber 0 0 0 = some (-1) := by
      unfold AciStrainCompatibility.extreme_concrete_compression_fiber
      simp [S, List.min?]
    have hstr : ∀ st ∈ fiberStrains S 0 0 0 (-1),
        st ≤ AciStrainCompatibilityConcreteMaterial.extreme_concrete_compression_strain *
          (1 - 0.85) := by
      intro st hst
      unfold fiberStrains at hst
      rw [if_pos (by norm_num)] at hst
      simp [S, lineDist, AciStrainCompatibility.extreme_concrete_compression_strain] at hst
      subst hst
      unfold AciStrainCompatibilityConcreteMaterial.extreme_concrete_compression_strain
      norm_num
    obtain ⟨q, hq, hq1⟩ :=
      (C5_strain_field_and_axial_force S 0 0 0 ⟨4, "us"⟩ 3 0.85
        (by simp [S]) rfl rfl rfl (by intro i hi; simpa [S] using hi) rfl rfl hb).2.2.1
        (-1) hyc (by norm_num) hstr
    refine ⟨q, hq, ?_⟩
    rw [hq1]
    show (-0.85 : ℝ) * 4 * List.sum [2] = -6.8
    norm_num
  · intro S2
    have hb : (AciStrainCompatibilityConcreteMaterial.beta1 ⟨4, "us"⟩) = some 0.85 := by
      rw [beta1_us]
      norm_num
    have hyc : S2.extreme_concrete_compression_fiber 0 0 0 = some 1 := by
      unfold AciStrainCompatibility.extreme_concrete_compression_fiber
      simp [S2, List.min?]
    exact (C5_strain_field_and_axial_force S2 0 0 0 ⟨4, "us"⟩ 3 0.85
        (by simp [S2]) rfl rfl rfl (by intro i hi; simpa [S2] using hi) rfl rfl hb).2.2.2
        1 hyc (by norm_num)

/-! ## Theorems: continuation controller (C1, C2, C3, C4, C9, C10) -/

lemma option_orElse_none {α : Type} (x : Option α) : (none <|> x) = x := rfl

lemma option_orElse_some {α : Type} (a : α) (x : Option α) : (some a <|> x) = some a := rfl

/-- C2 counterexample: with the eigenvalue threshold configured to `1` and the
last recorded lowest eigenvalue `1/2` (below the threshold but not below `0`),
the claim says EigenvalueLimit fires on both paths; on the non-proportional
path the code compares against the literal `0` and does not fire, while the
proportional path does. -/
theorem C2_counterexample_nonprop_eigen_threshold :
    (checkLimitsNonprop none (some 1) none none 0 0 (1/2) 0 0).1 = none ∧
    (checkLimitsProp none (some 1) none none 0 0 (1/2) 0 0).1 =
      some ExitMsg.eigenvalueLimitReached := by
  constructor <;>
    norm_num [checkLimitsNonprop, checkLimitsProp, option_orElse_none, option_orElse_some]

/-- C2 amended: after each successful increment the four monitors are
evaluated in the fixed order LoadDropLimit, EigenvalueLimit,
ConcreteStrainLimit, SteelStrainLimit with the first condition that holds
winning and a `none` threshold skipping its monitor; EigenvalueLimit fires
exactly when the last recorded lowest eigenvalue is below the configured
threshold on the proportional path, but below the literal `0` on the
non-proportional path (the configured threshold there only enables the
check). -/
theorem C2_monitor_order_amended :
    ∀ (plim elim clim slim : Option ℚ) (L M e c st : ℚ),
      (checkLimitsProp plim elim clim slim L M e c st).1 =
        monitorVerdict
          (match plim with | some d => decide (L < (1 - d) * max M L) | none => false)
          (match elim with | some l => decide (e < l) | none => false)
          (match clim with | some l => decide (c < l) | none => false)
          (match slim with | some l => decide (l < st) | none => false) ∧
      (checkLimitsNonprop plim elim clim slim L M e c st).1 =
        monitorVerdict
          (match plim with | some d => decide (L < (1 - d) * max M L) | none => false)
          (match elim with | some _ => decide (e < 0) | none => false)
          (match clim with | some l => decide (c < l) | none => false)
          (match slim with | some l => decide (l < st) | none => false) := by
  intro plim elim clim slim L M e c st
  constructor <;>
    (cases plim <;> cases elim <;> cases clim <;> cases slim <;>
      simp only [checkLimitsProp, checkLimitsNonprop, monitorVerdict,
        option_orElse_none, option_orElse_some, decide_eq_true_eq] <;>
      split_ifs <;>
      simp_all [option_orElse_none, option_orElse_some])

/-- C1 amended: with the ladder enabled, a non-converged increment is retried
at 1/10, 1/100, 1/1000 and 1/10000 of the current step size in that order, but
only a converging 1/1000 or 1/10000 attempt permanently reduces the baseline
step size by 10 (a converging 1/100 attempt leaves it unchanged); if all step
reductions fail the controller tries ModifiedNewton, then KrylovNewton, then
KrylovNewton with the final-attempt tolerance — which the proportional loop
sets to `1e-2` (relaxed) but the non-proportional lateral loop sets to `1e-4`
(tightened); if every attempt fails the loop terminates with
`Analysis Failed` on both paths. -/
theorem C1_retry_ladder_amended :
    (∀ (conv : OpsSettings → Bool) (retryI : ℚ → OpsIntegrator) (tolRelax incr : ℚ)
        (s0 : OpsSettings),
      (conv s0 = false →
       conv { s0 with integrator := retryI (incr / 10) } = true →
       ladder conv true retryI tolRelax incr s0 =
         (true, incr, { s0 with integrator := retryI (incr / 10) })) ∧
      (conv s0 = false →
       conv { s0 with integrator := retryI (incr / 10) } = false →
       conv { s0 with integrator := retryI (incr / 100) } = true →
       ladder conv true retryI tolRelax incr s0 =
         (true, incr, { s0 with integrator := retryI (incr / 100) })) ∧
      (conv s0 = false →
       conv { s0 with integrator := retryI (incr / 10) } = false →
       conv { s0 with integrator := retryI (incr / 100) } = false →
       conv { s0 with integrator := retryI (incr / 1000) } = true →
       ladder conv true retryI tolRelax incr s0 =
         (true, incr / 10, { s0 with integrator := retryI (incr / 1000) })) ∧
      (conv s0 = false →
       conv { s0 with integrator := retryI (incr / 10) } = false →
       conv { s0 with integrator := retryI (incr / 100) } = false →
       conv { s0 with integrator := retryI (incr / 1000) } = false →
       conv { s0 with integrator := retryI (incr / 10000) } = true →
       ladder conv true retryI tolRelax incr s0 =
         (true, incr / 10, { s0 with integrator := retryI (incr / 10000) })) ∧
      (conv s0 = false →
       conv { s0 with integrator := retryI (incr / 10) } = false →
       conv { s0 with integrator := retryI (incr / 100) } = false →
       conv { s0 with integrator := retryI (incr / 1000) } = false →
       conv { s0 with integrator := retryI (incr / 10000) } = false →
       conv { s0 with integrator := retryI (incr / 10000), algorithm := OpsAlgorithm.modifiedNewton } = false →
       conv { s0 with integrator := retryI (incr / 10000), algorithm := OpsAlgorithm.krylovNewton } = false →
       conv { s0 with integrator := retryI (incr / 10000), algorithm := OpsAlgorithm.krylovNewton, tol := tolRelax } = true →
       ladder conv true retryI tolRelax incr s0 =
         (true, incr, { s0 with integrator := retryI (incr / 10000), algorithm := OpsAlgorithm.krylovNewton, tol := tolRelax })) ∧
      (conv s0 = false →
       conv { s0 with integrator := retryI (incr / 10) } = false →
       conv { s0 with integrator := retryI (incr / 100) } = false →
       conv { s0 with integrator := retryI (incr / 1000) } = false →
       conv { s0 with integrator := retryI (incr / 10000) } = false →
       conv { s0 with integrator := retryI (incr / 10000), algorithm := OpsAlgorithm.modifiedNewton } = false →
       conv { s0 with integrator := retryI (incr / 10000), algorithm := OpsAlgorithm.krylovNewton } = false →
       conv { s0 with integrator := retryI (incr / 10000), algorithm := OpsAlgorithm.krylovNewton, tol := tolRelax } = false →
       (ladder conv true retryI tolRelax incr s0).1 = false)) ∧
    (∀ (conv : ℕ → OpsSettings → Bool) (obs : ℕ → ObsQ)
        (plim elim clim slim : Option ℚ) (ts : Bool) (fuel : ℕ) (st : PropLoopState),
      (ladder (conv st.res.applied_axial_load.length) ts OpsIntegrator.loadControl (1 / 100)
        st.load_incr_factor st.settings).1 = false →
      propLoop conv obs plim elim clim slim ts (fuel + 1) st =
        some (st.res, ExitMsg.analysisFailed)) ∧
    (∀ (conv : ℕ → OpsSettings → Bool) (obs : ℕ → ObsQ) (P : ℚ)
        (plim elim clim slim : Option ℚ) (ts : Bool) (fuel : ℕ) (st : LateralLoopState),
      (ladder (conv st.res.applied_axial_load.length) ts (fun q => OpsIntegrator.dispControl 1 3 q)
        (1 / 10000) st.disp_incr_factor st.settings).1 = false →
      lateralLoop conv obs P plim elim clim slim ts (fuel + 1) st =
        some (st.res, ExitMsg.analysisFailed)) := by
  refine ⟨?_, ?_, ?_⟩
  · intro conv retryI tolRelax incr s0
    refine ⟨?_, ?_, ?_, ?_, ?_, ?_⟩ <;>
      (intros
       simp_all [ladder, attemptIf])
  · intro conv obs plim elim clim slim ts fuel st hfail
    unfold propLoop
    dsimp only
    rw [hfail]
    rfl
  · intro conv obs P plim elim clim slim ts fuel st hfail
    unfold lateralLoop
    dsimp only
    rw [hfail]
    rfl

/-- C1 counterexample: (i) a solver that converges exactly at the 1/100-step
retry makes the ladder succeed yet leaves the baseline step size at `1`
(the claim requires a permanent 10× reduction for a converging 1/100 attempt);
(ii) on the non-proportional path the final KrylovNewton retry runs at
tolerance `1e-4`, which is *smaller* (tighter) than the default `1e-3`, not
relaxed by one order of magnitude. -/
theorem C1_counterexample_baseline_and_tolerance :
    (ladder (fun s => if s.integrator = OpsIntegrator.loadControl (1 / 100) then true else false)
        true OpsIntegrator.loadControl (1 / 100) 1
        ⟨OpsAlgorithm.newton, 1 / 1000, OpsIntegrator.loadControl 1⟩).1 = true ∧
    (ladder (fun s => if s.integrator = OpsIntegrator.loadControl (1 / 100) then true else false)
        true OpsIntegrator.loadControl (1 / 100) 1
        ⟨OpsAlgorithm.newton, 1 / 1000, OpsIntegrator.loadControl 1⟩).2.1 = 1 ∧
    (ladder (fun s => if s.tol = 1 / 10000 then true else false)
        true (fun q => OpsIntegrator.dispControl 1 3 q) (1 / 10000) 1
        ⟨OpsAlgorithm.newton, 1 / 1000, OpsIntegrator.dispControl 2 3 1⟩).2.2.tol = 1 / 10000 ∧
    ((1 / 10000 : ℚ) < 1 / 1000) := by
  refine ⟨?_, ?_, ?_, by norm_num⟩ <;> norm_num [ladder, attemptIf]

/-- Witness for C1's amended theorem: a solver converging exactly at the 1/100
retry of baseline `1e-3` converges without reducing the baseline. -/
theorem C1_retry_ladder_amended_witness :
    ladder (fun s => if s.integrator = OpsIntegrator.loadControl (1 / 1000 / 100) then true
        else false)
      true OpsIntegrator.loadControl (1 / 100) (1 / 1000)
      ⟨OpsAlgorithm.newton, 1 / 1000, OpsIntegrator.loadControl (1 / 1000)⟩ =
      (true, 1 / 1000,
        ⟨OpsAlgorithm.newton, 1 / 1000, OpsIntegrator.loadControl (1 / 1000 / 100)⟩) := by
  have h := (C1_retry_ladder_amended.1
    (fun s => if s.integrator = OpsIntegrator.loadControl (1 / 1000 / 100) then true else false)
    OpsIntegrator.loadControl (1 / 100) (1 / 1000)
    ⟨OpsAlgorithm.newton, 1 / 1000, OpsIntegrator.loadControl (1 / 1000)⟩).2.1
  exact h (by norm_num) (by norm_num) (by norm_num)

/-- C3: the limit-point dispatcher selects the maximum-absolute-moment series
(target: its maximum) for `Analysis Failed` and `Load Drop Limit Reached`, the
lowest-eigenvalue series (target: the eigenvalue threshold) for
`Eigenvalue Limit Reached`, the concrete-strain series for the concrete limit,
the steel-strain series for the steel limit — in each case applying the same
fractional position `(ind, x)` independently to the applied-load and moment
series — and yields an error for any message containing none of the five known
tags. -/
theorem C3_find_limit_point_dispatch :
    ∀ (applied moment eigl concl steell : List ℚ) (el cl sl : Option ℚ),
      (∀ mx, moment.max? = some mx →
        find_limit_point ExitMsg.analysisFailed.text applied moment eigl concl steell el cl sl =
          (let p := find_limit_point_in_list moment mx
           some (interpolate_list applied p.1 p.2, interpolate_list moment p.1 p.2))) ∧
      (∀ mx, moment.max? = some mx →
        find_limit_point ExitMsg.loadDropLimitReached.text applied moment eigl concl steell
            el cl sl =
          (let p := find_limit_point_in_list moment mx
           some (interpolate_list applied p.1 p.2, interpolate_list moment p.1 p.2))) ∧
      (∀ l, el = some l →
        find_limit_point ExitMsg.eigenvalueLimitReached.text applied moment eigl concl steell
            el cl sl =
          (let p := find_limit_point_in_list eigl l
           some (interpolate_list applied p.1 p.2, interpolate_list moment p.1 p.2))) ∧
      (∀ l, cl = some l →
        find_limit_point ExitMsg.concreteStrainLimitReached.text applied moment eigl concl steell
            el cl sl =
          (let p := find_limit_point_in_list concl l
           some (interpolate_list applied p.1 p.2, interpolate_list moment p.1 p.2))) ∧
      (∀ l, sl = some l →
        find_limit_point ExitMsg.steelStrainLimitReached.text applied moment eigl concl steell
            el cl sl =
          (let p := find_limit_point_in_list steell l
           some (interpolate_list applied p.1 p.2, interpolate_list moment p.1 p.2))) ∧
      (∀ msg : String,
        pyContains "Analysis Failed" msg = false →
        pyContains "Eigenvalue Limit" msg = false →
        pyContains "Extreme Compressive Concrete Fiber Strain Limit Reached" msg = false →
        pyContains "Extreme Steel Fiber Strain Limit Reached" msg = false →
        pyContains "Load Drop Limit Reached" msg = false →
        find_limit_point msg applied moment eigl concl steell el cl sl = none) := by
  intro applied moment eigl concl steell el cl sl
  refine ⟨?_, ?_, ?_, ?_, ?_, ?_⟩
  · intro mx hmx
    have h1 : pyContains "Analysis Failed" "Analysis Failed" = true := by decide
    simp only [ExitMsg.text]
    unfold find_limit_point
    simp only [h1, if_true]
    rw [hmx]
  · intro mx hmx
    have h1 : pyContains "Analysis Failed" "Load Drop Limit Reached" = false := by decide
    have h2 : pyContains "Eigenvalue Limit" "Load Drop Limit Reached" = false := by decide
    have h3 : pyContains "Extreme Compressive Concrete Fiber Strain Limit Reached"
        "Load Drop Limit Reached" = false := by decide
    have h4 : pyContains "Extreme Steel Fiber Strain Limit Reached"
        "Load Drop Limit Reached" = false := by decide
    have h5 : pyContains "Load Drop Limit Reached" "Load Drop Limit Reached" = true := by decide
    simp only [ExitMsg.text]
    unfold find_limit_point
    simp only [h1, h2, h3, h4, h5, if_true, Bool.false_eq_true, if_false]
    rw [hmx]
  · intro l hl
    have h1 : pyContains "Analysis Failed" "Eigenvalue Limit Reached" = false := by decide
    have h2 : pyContains "Eigenvalue Limit" "Eigenvalue Limit Reached" = true := by decide
    simp only [ExitMsg.text]
    unfold find_limit_point
    simp only [h1, h2, if_true, Bool.false_eq_true, if_false]
    rw [hl]
  · intro l hl
    have h1 : pyContains "Analysis Failed"
        "Extreme Compressive Concrete Fiber Strain Limit Reached" = false := by decide
    have h2 : pyContains "Eigenvalue Limit"
        "Extreme Compressive Concrete Fiber Strain Limit Reached" = false := by decide
    have h3 : pyContains "Extreme Compressive Concrete Fiber Strain Limit Reached"
        "Extreme Compressive Concrete Fiber Strain Limit Reached" = true := by decide
    simp only [ExitMsg.text]
    unfold find_limit_point
    simp only [h1, h2, h3, if_true, Bool.false_eq_true, if_false]
    rw [hl]
  · intro l hl
    have h1 : pyContains "Analysis Failed"
        "Extreme Steel Fiber Strain Limit Reached" = false := by decide
    have h2 : pyContains "Eigenvalue Limit"
        "Extreme Steel Fiber Strain Limit Reached" = false := by decide
    have h3 : pyContains "Extreme Compressive Concrete Fiber Strain Limit Reached"
        "Extreme Steel Fiber Strain Limit Reached" = false := by decide
    have h4 : pyContains "Extreme Steel Fiber Strain Limit Reached"
        "Extreme Steel Fiber Strain Limit Reached" = true := by decide
    simp only [ExitMsg.text]
    unfold find_limit_point
    simp only [h1, h2, h3, h4, if_true, Bool.false_eq_true, if_false]
    rw [hl]
  · intro msg h1 h2 h3 h4 h5
    unfold find_limit_point
    simp only [h1, h2, h3, h4, h5, Bool.false_eq_true, if_false]

/-- Witness for C3: the eigenvalue branch on a two-step history with threshold
`0`, and the unknown-tag error on the message "Something Else". -/
theorem C3_find_limit_point_dispatch_witness :
    (find_limit_point "Eigenvalue Limit Reached" [5, 6] [0, 0] [2, -1] [] [] (some 0) none none =
      (let p := find_limit_point_in_list [2, -1] 0
       some (interpolate_list [5, 6] p.1 p.2, interpolate_list [0, 0] p.1 p.2))) ∧
    (find_limit_point "Something Else" [5, 6] [0, 0] [2, -1] [] [] (some 0) none none = none) := by
  constructor
  · exact ((C3_find_limit_point_dispatch [5, 6] [0, 0] [2, -1] [] [] (some 0)
      none none).2.2.1) 0 rfl
  · exact ((C3_find_limit_point_dispatch [5, 6] [0, 0] [2, -1] [] [] (some 0)
      none none).2.2.2.2.2) "Something Else" (by decide) (by decide) (by decide) (by decide)
      (by decide)

lemma recordProp_length (o : ObsQ) (r : AnalysisResultsQ) :
    (recordProp o r).applied_axial_load.length = r.applied_axial_load.length + 1 := by
  simp [recordProp]

lemma vertLoop_fail (conv : ℕ → OpsSettings → Bool) (obs : ℕ → ObsQ) (s : OpsSettings)
    (k : ℕ) (htrue : ∀ n, n < k → conv n s = true) (hfalse : conv k s = false) :
    ∀ (num : ℕ) (r : AnalysisResultsQ),
      r.applied_axial_load.length ≤ k → k < r.applied_axial_load.length + num →
      ∃ r2, vertLoop conv obs s num r = (r2, false) ∧
        r2.applied_axial_load.length = k := by
  intro num
  induction num with
  | zero =>
    intro r h1 h2
    omega
  | succ m ih =>
    intro r h1 h2
    unfold vertLoop
    dsimp only
    by_cases hk : r.applied_axial_load.length = k
    · rw [hk, hfalse]
      exact ⟨r, by simp, hk⟩
    · have hlt : r.applied_axial_load.length < k := lt_of_le_of_ne h1 hk
      rw [htrue _ hlt]
      simp only [if_true]
      exact ih (recordProp (obs r.applied_axial_load.length) r)
        (by rw [recordProp_length]; omega) (by rw [recordProp_length]; omega)

/-- C4 amended: if the first `k − 1` vertical increments converge and the
`k`-th solver call fails (`1 ≤ k ≤ num_steps_vertical`), the non-proportional
analysis returns immediately with the vertical-loading failure exit, no
limit-point interpolation, and a ResponseHistory of exactly `k` records — the
initial record plus the `k − 1` successful increments.  (For a failure at
increment 3 of 10 the history has length 3, not 4 as the claim's instance
states.) -/
theorem C4_vertical_failure_amended (conv : ℕ → OpsSettings → Bool) (obs : ℕ → ObsQ)
    (P : ℚ) (num_steps_vertical : ℕ) (disp_incr_factor : ℚ)
    (el pl cl sl : Option ℚ) (ts : Bool) (fuel : ℕ) (k : ℕ)
    (hk1 : 1 ≤ k) (hk2 : k ≤ num_steps_vertical)
    (htrue : ∀ n, n < k →
      conv n ⟨.newton, 1 / 1000, .loadControl (P / num_steps_vertical)⟩ = true)
    (hfalse : conv k ⟨.newton, 1 / 1000, .loadControl (P / num_steps_vertical)⟩ = false) :
    ∃ r2, run_ops_analysis_nonproportional conv obs P num_steps_vertical disp_incr_factor
        el pl cl sl ts fuel =
        some ⟨r2, ExitMsg.analysisFailedInVerticalLoading, none⟩ ∧
      r2.applied_axial_load.length = k := by
  obtain ⟨r2, hloop, hlen⟩ := vertLoop_fail conv obs
    ⟨.newton, 1 / 1000, .loadControl (P / num_steps_vertical)⟩ k htrue hfalse
    num_steps_vertical (recordProp (obs 0) {})
    (by rw [recordProp_length]; simp [AnalysisResultsQ]; omega)
    (by rw [recordProp_length]; simp [AnalysisResultsQ]; omega)
  refine ⟨r2, ?_, hlen⟩
  unfold run_ops_analysis_nonproportional
  dsimp only
  rw [hloop]

/-- C4 counterexample: a non-proportional run whose 3rd vertical solver call
fails (calls 1 and 2 converge) returns a ResponseHistory of length 3 — the
initial record plus two successful increments — not length 4 as the claim
states for a failure at increment 3 of 10. -/
theorem C4_counterexample_length_three :
    (run_ops_analysis_nonproportional (fun n _ => decide (n < 3)) (fun _ => ⟨0, 0, 0, 0, 0⟩)
        10 10 (1 / 10000000) (some 0) (some (5 / 100)) (some (-(1 / 100))) (some (5 / 100))
        true 5).map
      (fun r => (r.exit_message, r.res.applied_axial_load.length, r.limit_point)) =
      some (ExitMsg.analysisFailedInVerticalLoading, 3, none) := by
  obtain ⟨r2, heq, hlen⟩ := C4_vertical_failure_amended (fun n _ => decide (n < 3))
    (fun _ => ⟨0, 0, 0, 0, 0⟩) 10 10 (1 / 10000000) (some 0) (some (5 / 100))
    (some (-(1 / 100))) (some (5 / 100)) true 5 3 (by norm_num) (by norm_num)
    (by intro n h; simpa using h) (by decide)
  rw [heq]
  rw [Option.map_some']
  rw [hlen]

/-- Witness for C4's amended theorem at `k = 3`, `num_steps_vertical = 10`. -/
theorem C4_vertical_failure_amended_witness :
    ∃ r2, run_ops_analysis_nonproportional (fun n _ => decide (n < 3))
        (fun _ => ⟨1, -1, 0, 0, 0⟩) 10 10 (1 / 10000000) (some 0) (some (5 / 100))
        (some (-(1 / 100))) (some (5 / 100)) true 5 =
        some ⟨r2, ExitMsg.analysisFailedInVerticalLoading, none⟩ ∧
      r2.applied_axial_load.length = 3 :=
  C4_vertical_failure_amended (fun n _ => decide (n < 3)) (fun _ => ⟨1, -1, 0, 0, 0⟩)
    10 10 (1 / 10000000) (some 0) (some (5 / 100)) (some (-(1 / 100))) (some (5 / 100))
    true 5 3 (by norm_num) (by norm_num) (by intro n h; simpa using h) (by decide)

lemma checkLimitsProp_some (plim elim clim slim : Option ℚ) (L M e c st : ℚ)
    (msg : ExitMsg) (h : (checkLimitsProp plim elim clim slim L M e c st).1 = some msg) :
    (msg = .loadDropLimitReached ∧ plim ≠ none) ∨
    (msg = .eigenvalueLimitReached ∧ elim ≠ none) ∨
    (msg = .concreteStrainLimitReached ∧ clim ≠ none) ∨
    (msg = .steelStrainLimitReached ∧ slim ≠ none) := by
  unfold checkLimitsProp at h
  dsimp only at h
  cases plim <;> cases elim <;> cases clim <;> cases slim <;>
    simp only [option_orElse_none, option_orElse_some] at h <;>
    (try split_ifs at h) <;>
    simp_all

lemma checkLimitsNonprop_some (plim elim clim slim : Option ℚ) (L M e c st : ℚ)
    (msg : ExitMsg) (h : (checkLimitsNonprop plim elim clim slim L M e c st).1 = some msg) :
    (msg = .loadDropLimitReached ∧ plim ≠ none) ∨
    (msg = .eigenvalueLimitReached ∧ elim ≠ none) ∨
    (msg = .concreteStrainLimitReached ∧ clim ≠ none) ∨
    (msg = .steelStrainLimitReached ∧ slim ≠ none) := by
  unfold checkLimitsNonprop at h
  dsimp only at h
  cases plim <;> cases elim <;> cases clim <;> cases slim <;>
    simp only [option_orElse_none, option_orElse_some] at h <;>
    (try split_ifs at h) <;>
    simp_all

lemma recordProp_moment (o : ObsQ) (r : AnalysisResultsQ) :
    (recordProp o r).maximum_abs_moment = r.maximum_abs_moment ++ [0] := rfl

lemma recordLateral_moment (P : ℚ) (o : ObsQ) (r : AnalysisResultsQ) :
    (recordLateral P o r).maximum_abs_moment = r.maximum_abs_moment ++ [|o.force|] := rfl

lemma propLoop_spec (conv : ℕ → OpsSettings → Bool) (obs : ℕ → ObsQ)
    (plim elim clim slim : Option ℚ) (ts : Bool) :
    ∀ (fuel : ℕ) (st : PropLoopState) (res : AnalysisResultsQ) (e : ExitMsg),
      propLoop conv obs plim elim clim slim ts fuel st = some (res, e) →
      (∀ v ∈ st.res.maximum_abs_moment, v = 0) →
      st.res.maximum_abs_moment ≠ [] →
      st.res.applied_axial_load ≠ [] →
      ((∀ v ∈ res.maximum_abs_moment, v = 0) ∧ res.maximum_abs_moment ≠ [] ∧
        res.applied_axial_load ≠ [] ∧
        (e = .eigenvalueLimitReached → elim ≠ none) ∧
        (e = .concreteStrainLimitReached → clim ≠ none) ∧
        (e = .steelStrainLimitReached → slim ≠ none)) := by
  intro fuel
  induction fuel with
  | zero =>
    intro st res e h
    exact Option.noConfusion h
  | succ m ih =>
    intro st res e h hz hne hna
    unfold propLoop at h
    dsimp only at h
    split at h
    · split at h
      case _ e2 heq =>
        simp only [Option.some_inj, Prod.mk.injEq] at h
        obtain ⟨h1, h2⟩ := h
        subst h1
        subst h2
        refine ⟨?_, ?_, ?_, ?_, ?_, ?_⟩
        · intro v hv
          rw [recordProp_moment, List.mem_append] at hv
          rcases hv with hv | hv
          · exact hz v hv
          · simpa using hv
        · rw [recordProp_moment]
          simp
        · simp [recordProp]
        all_goals
          (intro he
           subst he
           rcases checkLimitsProp_some plim elim clim slim _ _ _ _ _ _ heq with
             ⟨h3, h4⟩ | ⟨h3, h4⟩ | ⟨h3, h4⟩ | ⟨h3, h4⟩ <;>
             first
             | exact h4
             | exact absurd h3 (by decide))
      case _ heq =>
        refine ih _ res e h ?_ ?_ ?_
        · intro v hv
          rw [recordProp_moment, List.mem_append] at hv
          rcases hv with hv | hv
          · exact hz v hv
          · simpa using hv
        · rw [recordProp_moment]
          simp
        · simp [recordProp]
    · simp only [Option.some_inj, Prod.mk.injEq] at h
      obtain ⟨h1, h2⟩ := h
      subst h1
      subst h2
      exact ⟨hz, hne, hna, by simp, by simp, by simp⟩

lemma lateralLoop_nonempty (conv : ℕ → OpsSettings → Bool) (obs : ℕ → ObsQ) (P : ℚ)
    (plim elim clim slim : Option ℚ) (ts : Bool) :
    ∀ (fuel : ℕ) (st : LateralLoopState) (res : AnalysisResultsQ) (e : ExitMsg),
      lateralLoop conv obs P plim elim clim slim ts fuel st = some (res, e) →
      st.res.maximum_abs_moment ≠ [] →
      res.maximum_abs_moment ≠ [] := by
  intro fuel
  induction fuel with
  | zero =>
    intro st res e h
    exact Option.noConfusion h
  | succ m ih =>
    intro st res e h hne
    unfold lateralLoop at h
    dsimp only at h
    split at h
    · split at h
      case _ e2 heq =>
        simp only [Option.some_inj, Prod.mk.injEq] at h
        obtain ⟨h1, _⟩ := h
        subst h1
        rw [recordLateral_moment]
        simp
      case _ heq =>
        refine ih _ res e h ?_
        rw [recordLateral_moment]
        simp
    · simp only [Option.some_inj, Prod.mk.injEq] at h
      obtain ⟨h1, _⟩ := h
      subst h1
      exact hne

lemma vertLoop_moment_nonempty (conv : ℕ → OpsSettings → Bool) (obs : ℕ → ObsQ)
    (s : OpsSettings) :
    ∀ (num : ℕ) (r : AnalysisResultsQ), r.maximum_abs_moment ≠ [] →
      (vertLoop conv obs s num r).1.maximum_abs_moment ≠ [] := by
  intro num
  induction num with
  | zero =>
    intro r h
    exact h
  | succ m ih =>
    intro r h
    unfold vertLoop
    dsimp only
    split
    · refine ih _ ?_
      rw [recordProp_moment]
      simp
    · exact h

lemma nonprop_moment_nonempty (conv : ℕ → OpsSettings → Bool) (obs : ℕ → ObsQ)
    (P : ℚ) (num : ℕ) (disp : ℚ) (el pl cl sl : Option ℚ) (ts : Bool) (fuel : ℕ)
    (r : RunResultQ)
    (h : run_ops_analysis_nonproportional conv obs P num disp el pl cl sl ts fuel = some r) :
    r.res.maximum_abs_moment ≠ [] := by
  unfold run_ops_analysis_nonproportional at h
  dsimp only at h
  have hv := vertLoop_moment_nonempty conv obs
    ⟨.newton, 1 / 1000, .loadControl (P / num)⟩ num (recordProp (obs 0) {})
    (by simp [recordProp])
  split at h
  case _ res hfalse =>
    simp only [Option.some_inj] at h
    subst h
    rw [hfalse] at hv
    exact hv
  case _ res htrue =>
    split at h
    · exact absurd h (by simp)
    case _ re hlat =>
      simp only [Option.some_inj] at h
      subst h
      exact lateralLoop_nonempty conv obs P pl el cl sl ts fuel _ re.1 re.2
        (by rw [← hlat]) (by rw [recordLateral_moment]; simp)

lemma getD_zero (l : List ℚ) (hz : ∀ v ∈ l, v = 0) : ∀ i : ℕ, l.getD i 0 = 0 := by
  induction l with
  | nil => intro i; simp [List.getD]
  | cons a l ih =>
    intro i
    cases i with
    | zero => simpa using hz a (List.mem_cons_self a l)
    | succ j =>
      simp only [List.getD_cons_succ]
      exact ih (fun v hv => hz v (List.mem_cons_of_mem a hv)) j

lemma interpolate_zero (l : List ℚ) (hz : ∀ v ∈ l, v = 0) (ind : ℕ) (x : ℚ) :
    interpolate_list l ind x = 0 := by
  unfold interpolate_list
  split_ifs
  · rw [getD_zero l hz, getD_zero l hz]
    ring
  · exact getD_zero l hz _

lemma find_limit_point_zero (msg : ExitMsg) (applied moment eigl concl steell : List ℚ)
    (el cl sl : Option ℚ)
    (hz : ∀ v ∈ moment, v = 0) (hne : moment ≠ [])
    (he : msg = .eigenvalueLimitReached → el ≠ none)
    (hc : msg = .concreteStrainLimitReached → cl ≠ none)
    (hs : msg = .steelStrainLimitReached → sl ≠ none) :
    ∃ p, find_limit_point msg.text applied moment eigl concl steell el cl sl = some (p, 0) := by
  obtain ⟨mx, hmx⟩ := max?_of_ne_nil hne
  cases msg
  case analysisFailed =>
    have h1 : pyContains "Analysis Failed" "Analysis Failed" = true := by decide
    simp only [ExitMsg.text]
    unfold find_limit_point
    simp only [h1, if_true]
    rw [hmx]
    exact ⟨_, by dsimp only; rw [interpolate_zero moment hz]⟩
  case analysisFailedInVerticalLoading =>
    have h1 : pyContains "Analysis Failed" "Analysis Failed In Vertical Loading" = true := by
      decide
    simp only [ExitMsg.text]
    unfold find_limit_point
    simp only [h1, if_true]
    rw [hmx]
    exact ⟨_, by dsimp only; rw [interpolate_zero moment hz]⟩
  case loadDropLimitReached =>
    have h1 : pyContains "Analysis Failed" "Load Drop Limit Reached" = false := by decide
    have h2 : pyContains "Eigenvalue Limit" "Load Drop Limit Reached" = false := by decide
    have h3 : pyContains "Extreme Compressive Concrete Fiber Strain Limit Reached"
        "Load Drop Limit Reached" = false := by decide
    have h4 : pyContains "Extreme Steel Fiber Strain Limit Reached"
        "Load Drop Limit Reached" = false := by decide
    have h5 : pyContains "Load Drop Limit Reached" "Load Drop Limit Reached" = true := by decide
    simp only [ExitMsg.text]
    unfold find_limit_point
    simp only [h1, h2, h3, h4, h5, if_true, Bool.false_eq_true, if_false]
    rw [hmx]
    exact ⟨_, by dsimp only; rw [interpolate_zero moment hz]⟩
  case eigenvalueLimitReached =>
    have h1 : pyContains "Analysis Failed" "Eigenvalue Limit Reached" = false := by decide
    have h2 : pyContains "Eigenvalue Limit" "Eigenvalue Limit Reached" = true := by decide
    obtain ⟨l, hl⟩ := Option.ne_none_iff_exists'.mp (he rfl)
    simp only [ExitMsg.text]
    unfold find_limit_point
    simp only [h1, h2, if_true, Bool.false_eq_true, if_false]
    rw [hl]
    exact ⟨_, by dsimp only; rw [interpolate_zero moment hz]⟩
  case concreteStrainLimitReached =>
    have h1 : pyContains "Analysis Failed"
        "Extreme Compressive Concrete Fiber Strain Limit Reached" = false := by decide
    have h2 : pyContains "Eigenvalue Limit"
        "Extreme Compressive Concrete Fiber Strain Limit Reached" = false := by decide
    have h3 : pyContains "Extreme Compressive Concrete Fiber Strain Limit Reached"
        "Extreme Compressive Concrete Fiber Strain Limit Reached" = true := by decide
    obtain ⟨l, hl⟩ := Option.ne_none_iff_exists'.mp (hc rfl)
    simp only [ExitMsg.text]
    unfold find_limit_point
    simp only [h1, h2, h3, if_true, Bool.false_eq_true, if_false]
    rw [hl]
    exact ⟨_, by dsimp only; rw [interpolate_zero moment hz]⟩
  case steelStrainLimitReached =>
    have h1 : pyContains "Analysis Failed"
        "Extreme Steel Fiber Strain Limit Reached" = false := by decide
    have h2 : pyContains "Eigenvalue Limit"
        "Extreme Steel Fiber Strain Limit Reached" = false := by decide
    have h3 : pyContains "Extreme Compressive Concrete Fiber Strain Limit Reached"
        "Extreme Steel Fiber Strain Limit Reached" = false := by decide
    have h4 : pyContains "Extreme Steel Fiber Strain Limit Reached"
        "Extreme Steel Fiber Strain Limit Reached" = true := by decide
    obtain ⟨l, hl⟩ := Option.ne_none_iff_exists'.mp (hs rfl)
    simp only [ExitMsg.text]
    unfold find_limit_point
    simp only [h1, h2, h3, h4, if_true, Bool.false_eq_true, if_false]
    rw [hl]
    exact ⟨_, by dsimp only; rw [interpolate_zero moment hz]⟩

lemma prop_run_spec (conv : ℕ → OpsSettings → Bool) (obs : ℕ → ObsQ) (incr : ℚ)
    (el pl cl sl : Option ℚ) (ts : Bool) (fuel : ℕ) (out : RunResultQ)
    (h : run_ops_analysis_proportional conv obs incr el pl cl sl ts fuel = some out) :
    (∀ v ∈ out.res.maximum_abs_moment, v = 0) ∧ out.res.maximum_abs_moment ≠ [] ∧
    out.res.applied_axial_load ≠ [] ∧
    (out.exit_message = .eigenvalueLimitReached → el ≠ none) ∧
    (out.exit_message = .concreteStrainLimitReached → cl ≠ none) ∧
    (out.exit_message = .steelStrainLimitReached → sl ≠ none) ∧
    out.limit_point = find_limit_point out.exit_message.text out.res.applied_axial_load
      out.res.maximum_abs_moment out.res.lowest_eigenvalue
      out.res.maximum_concrete_compression_strain out.res.maximum_steel_strain el cl sl := by
  unfold run_ops_analysis_proportional at h
  dsimp only at h
  split at h
  · exact absurd h (by simp)
  case _ re hloop =>
    have hspec := propLoop_spec conv obs pl el cl sl ts fuel _ re.1 re.2
      (by rw [← hloop]) (by simp [recordProp]) (by simp [recordProp]) (by simp [recordProp])
    simp only [Option.some_inj] at h
    subst h
    exact ⟨hspec.1, hspec.2.1, hspec.2.2.1, hspec.2.2.2.1, hspec.2.2.2.2.1,
      hspec.2.2.2.2.2, rfl⟩

lemma interactionLoop_M_head (conv : ℕ → ℕ → OpsSettings → Bool) (obs : ℕ → ℕ → ObsQ)
    (N : ℕ) (p0 : ℚ) (fuel : ℕ) :
    ∀ (k i : ℕ) (PM out : List ℚ × List ℚ),
      interactionLoop conv obs N p0 fuel k i PM = some (.ok out) →
      PM.2 ≠ [] → PM.2.head? = some 0 → out.2.head? = some 0 := by
  intro k
  induction k with
  | zero =>
    intro i PM out h h1 h2
    unfold interactionLoop at h
    simp only [Option.some_inj, Except.ok.injEq] at h
    subst h
    exact h2
  | succ m ih =>
    intro i PM out h h1 h2
    unfold interactionLoop at h
    dsimp only at h
    split at h
    · exact absurd h (by simp)
    · split at h
      · exact absurd h (by simp)
      · refine ih _ _ out h (by simp) ?_
        rw [List.head?_append, h2]
        rfl

/-- C10: on the proportional path every recorded `maximum_abs_moment` entry is
the constant 0; hence every completed proportional continuation, whatever its
exit condition, reports `maximum_abs_moment_at_limit_point = 0`, and the
axial-only point of the interaction curve has moment exactly 0. -/
theorem C10_proportional_moment_zero :
    (∀ (conv : ℕ → OpsSettings → Bool) (obs : ℕ → ObsQ) (incr : ℚ)
        (el pl cl sl : Option ℚ) (ts : Bool) (fuel : ℕ) (out : RunResultQ),
      run_ops_analysis_proportional conv obs incr el pl cl sl ts fuel = some out →
      (∀ v ∈ out.res.maximum_abs_moment, v = 0) ∧
      ∃ p, out.limit_point = some (p, 0)) ∧
    (∀ (conv : ℕ → ℕ → OpsSettings → Bool) (obs : ℕ → ℕ → ObsQ) (N : ℕ) (pi ni : ℚ)
        (fuel : ℕ) (C : List ℚ × List ℚ),
      run_ops_interaction conv obs N pi ni fuel = some (.ok C) →
      C.2.head? = some 0) := by
  constructor
  · intro conv obs incr el pl cl sl ts fuel out h
    obtain ⟨hz, hne, _, he, hc, hs, hlp⟩ := prop_run_spec conv obs incr el pl cl sl ts fuel out h
    obtain ⟨p, hp⟩ := find_limit_point_zero out.exit_message out.res.applied_axial_load
      out.res.maximum_abs_moment out.res.lowest_eigenvalue
      out.res.maximum_concrete_compression_strain out.res.maximum_steel_strain
      el cl sl hz hne he hc hs
    exact ⟨hz, p, by rw [hlp, hp]⟩
  · intro conv obs N pi ni fuel C h
    unfold run_ops_interaction at h
    split at h
    · exact absurd h (by simp)
    case _ r0 hrun =>
      split at h
      · exact absurd h (by simp)
      case _ p0 hmax =>
        exact interactionLoop_M_head conv obs N p0 fuel _ _ _ C h (by simp) (by simp)

lemma interactionLoop_no_error (conv : ℕ → ℕ → OpsSettings → Bool) (obs : ℕ → ℕ → ObsQ)
    (N : ℕ) (p0 : ℚ) (fuel : ℕ) :
    ∀ (k i : ℕ) (PM : List ℚ × List ℚ),
      interactionLoop conv obs N p0 fuel k i PM ≠ some (.error ()) := by
  intro k
  induction k with
  | zero =>
    intro i PM h
    unfold interactionLoop at h
    simp at h
  | succ m ih =>
    intro i PM h
    unfold interactionLoop at h
    dsimp only at h
    split at h
    · exact absurd h (by simp)
    case _ r hr =>
      split at h
      case _ hmax =>
        have hne := nonprop_moment_nonempty _ _ _ _ _ _ _ _ _ _ _ r hr
        obtain ⟨mm, hmm⟩ := max?_of_ne_nil hne
        rw [hmm] at hmax
        exact Option.noConfusion hmax
      case _ mm hmm =>
        exact ih _ _ h

/-- C9: the axial-capacity guard of `run_ops_interaction` is unreachable — the
proportional run always records at least the initial step, so the axial-load
series always has a maximum and the embedded `ValueError` branch can never be
taken; in particular a solver that never converges at all still yields an
interaction curve (here `P = [0, 0]`, `M = [0, 0]`) instead of raising. -/
theorem C9_axial_guard_unreachable :
    (∀ (conv : ℕ → ℕ → OpsSettings → Bool) (obs : ℕ → ℕ → ObsQ) (N : ℕ) (pi ni : ℚ)
        (fuel : ℕ),
      run_ops_interaction conv obs N pi ni fuel = none ∨
      ∃ C, run_ops_interaction conv obs N pi ni fuel = some (.ok C)) ∧
    run_ops_interaction (fun _ _ _ => false) (fun _ _ => ⟨0, 0, 0, 0, 0⟩) 2 1 1 1 =
      some (.ok ([0, 0], [0, 0])) := by
  constructor
  · intro conv obs N pi ni fuel
    cases hval : run_ops_interaction conv obs N pi ni fuel with
    | none => exact Or.inl rfl
    | some exc =>
      cases exc with
      | ok C => exact Or.inr ⟨C, rfl⟩
      | error u =>
        cases u
        have h := hval
        unfold run_ops_interaction at h
        split at h
        · exact absurd h (by simp)
        case _ r0 hrun =>
          split at h
          case _ hmax =>
            have hne := (prop_run_spec _ _ _ _ _ _ _ _ _ _ hrun).2.2.1
            obtain ⟨p0, hp0⟩ := max?_of_ne_nil hne
            rw [hp0] at hmax
            exact Option.noConfusion hmax
          case _ p0 hmax =>
            exact absurd h (interactionLoop_no_error conv obs N p0 fuel _ _ _)
  · have hAF : pyContains "Analysis Failed" "Analysis Failed" = true := by decide
    norm_num [run_ops_interaction, run_ops_analysis_proportional, propLoop, ladder,
      attemptIf, recordProp, find_limit_point, find_limit_point_in_list, interpolate_list,
      interactionLoop, run_ops_analysis_nonproportional, vertLoop, ExitMsg.text, hAF,
      List.max?, List.range, List.getD]

/-- Witness for C10: a proportional run whose lowest eigenvalue is negative
from the first increment exits with EigenvalueLimit, an all-zero moment
series, and a limit-point moment of exactly 0; an interaction sweep with
`num_points = 1` yields the axial-only point with moment 0. -/
theorem C10_proportional_moment_zero_witness :
    (∃ out, run_ops_analysis_proportional (fun _ _ => true) (fun _ => ⟨0, -1, 0, 0, 0⟩) 1
        (some 0) (some (5 / 100)) (some (-(1 / 100))) (some (5 / 100)) true 2 = some out ∧
      (∀ v ∈ out.res.maximum_abs_moment, v = 0) ∧ ∃ p, out.limit_point = some (p, 0)) ∧
    (∃ C, run_ops_interaction (fun _ _ _ => true) (fun _ _ => ⟨0, -1, 0, 0, 0⟩) 1 1 1 2 =
        some (.ok C) ∧ C.2.head? = some 0) := by
  have hAF : pyContains "Analysis Failed" "Eigenvalue Limit Reached" = false := by decide
  have hEg : pyContains "Eigenvalue Limit" "Eigenvalue Limit Reached" = true := by decide
  have hrun : run_ops_analysis_proportional (fun _ _ => true) (fun _ => ⟨0, -1, 0, 0, 0⟩) 1
      (some 0) (some (5 / 100)) (some (-(1 / 100))) (some (5 / 100)) true 2 =
      some ⟨⟨[0, 0], [0, 0], [-1, -1], [0, 0], [0, 0]⟩,
        ExitMsg.eigenvalueLimitReached, some (0, 0)⟩ := by
    norm_num [run_ops_analysis_proportional, propLoop, ladder, attemptIf, recordProp,
      checkLimitsProp, option_orElse_none, option_orElse_some, find_limit_point,
      find_limit_point_in_list, interpolate_list, ExitMsg.text, hAF, hEg,
      List.range_succ, List.range_zero, List.foldl_append, List.foldl_cons, List.foldl_nil,
      List.getD]
  have hint : run_ops_interaction (fun _ _ _ => true) (fun _ _ => ⟨0, -1, 0, 0, 0⟩) 1 1 1 2 =
      some (.ok ([0], [0])) := by
    norm_num [run_ops_interaction, run_ops_analysis_proportional, propLoop, ladder,
      attemptIf, recordProp, checkLimitsProp, option_orElse_none, option_orElse_some,
      find_limit_point, find_limit_point_in_list, interpolate_list, ExitMsg.text, hAF, hEg,
      interactionLoop, List.max?, List.range_succ, List.range_zero, List.foldl_append,
      List.foldl_cons, List.foldl_nil, List.getD]
  refine ⟨⟨_, hrun, ?_, ?_⟩, ⟨_, hint, ?_⟩⟩
  · exact (C10_proportional_moment_zero.1 _ _ _ _ _ _ _ _ _ _ hrun).1
  · exact (C10_proportional_moment_zero.1 _ _ _ _ _ _ _ _ _ _ hrun).2
  · exact C10_proportional_moment_zero.2 _ _ _ _ _ _ _ hint
